import Mathlib

/-!
Verification of the superscrape crawl engine against its specification.

Each definition below is a shallow embedding of a function of the
repository, translated from the TypeScript source:

* `src/reliability/rate-limiter.ts`  — `createRateLimiter` (`cleanOldRequests`,
  `calculateDelay`, `acquire`, `getStats`), `isRetryableError`, `retryWithBackoff`
* `src/reliability/circuit-breaker.ts` — `createCircuitBreaker`
* `src/reliability/index.ts`        — `createReliabilityWrapper`
* `src/storage/database.ts`         — the `SCHEMA` uniqueness constraints
* `src/storage/repository.ts`       — `upsertProduct`, `insertPriceSnapshot`,
  `createRun`, `updateCategoryRun`, `getRunStatus`, `getIncompleteRun`,
  `completeRun`
* `src/resume.ts`                   — `resolveResumeState`
* `src/multi-scraper.ts`            — `MultiCategoryScraper.run` / `scrapeCategory`

JavaScript machine integers and floats are modelled as `Nat`/`ℚ`;
where JS `NaN` matters (the rate limiter's delay arithmetic) numbers are
wrapped in an explicit `JSNum` type with NaN propagation.  Effectful
functions become explicit state passing; `throw` becomes `Except`.
-/

namespace Superscrape

/-! ## JavaScript error values (`Error` with optional `statusCode`) -/

structure JsError where
  name : String
  message : String
  statusCode : Option Nat
  deriving Repr, DecidableEq

/-- The `CircuitOpenError` raised by the circuit breaker
(`class CircuitOpenError extends Error`, `src/reliability/types.ts`). -/
def circuitOpenError : JsError :=
  { name := "CircuitOpenError", message := "Circuit breaker is open", statusCode := none }

/-! ## Retry executor (`src/reliability/rate-limiter.ts` bundle, `retry.ts`) -/

structure RetryConfig where
  maxRetries : Nat
  initialDelayMs : Nat
  maxDelayMs : Nat
  backoffMultiplier : Nat
  deriving Repr

structure RetryResult (T : Type) where
  success : Bool
  value : Option T
  error : Option JsError
  attempts : Nat
  deriving Repr

/-- Substring test on character lists (JS `String.prototype.includes`). -/
def charsContain (pat s : List Char) : Bool :=
  (List.range (s.length + 1)).any (fun i => pat.isPrefixOf (s.drop i))

/-- The message patterns that mark an error as a network/timeout failure
(`retryablePatterns` in `isRetryableError`). -/
def retryablePatterns : List String :=
  ["network", "timeout", "timed out", "etimedout", "econnrefused",
   "enotfound", "socket hang up", "econnreset"]

/-- `isRetryableError` from `src/reliability/retry.ts`.  The JS code reads
`statusCode` with a truthiness guard (`statusCode && ...`), so a missing or
zero status code falls through to the message checks. -/
def isRetryableError (e : JsError) : Bool :=
  if e.name = "ValidationError" ∨ e.name = "AuthenticationError" then
    false
  else if e.statusCode.getD 0 ≠ 0 ∧ 400 ≤ e.statusCode.getD 0 ∧ e.statusCode.getD 0 < 500 then
    false
  else if e.statusCode.getD 0 ≠ 0 ∧ 500 ≤ e.statusCode.getD 0 ∧ e.statusCode.getD 0 < 600 then
    true
  else if retryablePatterns.any (fun p => charsContain p.toList e.message.toLower.toList) then
    true
  else
    -- Default: assume retryable for unknown errors
    true

/-- The backoff delay the code computes before retry number `attempts`
(`min(initialDelayMs * backoffMultiplier ^ (attempts - 1), maxDelayMs)`). -/
def backoffDelay (cfg : RetryConfig) (attempts : Nat) : Nat :=
  min (cfg.initialDelayMs * cfg.backoffMultiplier ^ (attempts - 1)) cfg.maxDelayMs

/-- One spin of the `while (attempts <= config.maxRetries)` loop of
`retryWithBackoff`.  `fn` is the wrapped effectful operation: it transforms a
caller-supplied state `σ` and yields an `Except` outcome, mirroring the JS
closure capturing mutable state.  The returned list collects the awaited
inter-attempt delays (the `setTimeout` arguments), newest last.  `fuel`
bounds the recursion; it starts at `maxRetries + 1` and, as in the JS code,
the `fuel = 0` fallback ("should never reach here") is unreachable. -/
def retryLoop {σ T : Type} (fn : σ → Except JsError T × σ) (cfg : RetryConfig) :
    Nat → Nat → σ → RetryResult T × σ × List Nat
  | 0, attemptsSoFar, s =>
    ({ success := false, value := none, error := none, attempts := attemptsSoFar }, s, [])
  | fuel + 1, attemptsSoFar, s =>
    let attempts := attemptsSoFar + 1
    match fn s with
    | (Except.ok v, s') =>
      ({ success := true, value := some v, error := none, attempts := attempts }, s', [])
    | (Except.error e, s') =>
      if ¬ isRetryableError e then
        ({ success := false, value := none, error := some e, attempts := attempts }, s', [])
      else if attempts > cfg.maxRetries then
        ({ success := false, value := none, error := some e, attempts := attempts }, s', [])
      else
        let rest := retryLoop fn cfg fuel attempts s'
        (rest.1, rest.2.1, backoffDelay cfg attempts :: rest.2.2)

/-- `retryWithBackoff(fn, config)` from `src/reliability/retry.ts`. -/
def retryWithBackoff {σ T : Type} (fn : σ → Except JsError T × σ) (cfg : RetryConfig)
    (s : σ) : RetryResult T × σ × List Nat :=
  retryLoop fn cfg (cfg.maxRetries + 1) 0 s

/-- A retry result is discriminated: success carries a value and no error,
failure carries an error and no value. -/
def RetryResult.discriminated {T : Type} (r : RetryResult T) : Prop :=
  (r.success = true ∧ (∃ v, r.value = some v) ∧ r.error = none)
    ∨ (r.success = false ∧ r.value = none ∧ ∃ e, r.error = some e)

/-! ## Rate limiter (`src/reliability/rate-limiter.ts`)

JS arithmetic on possibly-`undefined` array reads produces `NaN`
(`now - undefined`, `Math.max(0, NaN)`, …), so the delay computation is
modelled over `JSNum`, a rational extended with a NaN that propagates
through `-`, `+` and `Math.max` exactly as in IEEE/JS semantics. -/

inductive JSNum where
  | nan : JSNum
  | num : ℚ → JSNum
  deriving Repr, DecidableEq

def JSNum.sub : JSNum → JSNum → JSNum
  | num a, num b => num (a - b)
  | _, _ => nan

def JSNum.add : JSNum → JSNum → JSNum
  | num a, num b => num (a + b)
  | _, _ => nan

/-- `Math.max` returns NaN when any argument is NaN. -/
def JSNum.jmax : JSNum → JSNum → JSNum
  | num a, num b => num (max a b)
  | _, _ => nan

structure RateLimiterConfig where
  requestsPerMinute : Nat
  minDelayMs : ℚ
  maxDelayMs : ℚ
  jitterMs : ℚ
  deriving Repr

/-- `const windowMs = 60000`. -/
def windowMs : ℚ := 60000

/-- `cleanOldRequests`: shift entries from the front while they are older
than `now - windowMs`. -/
def cleanOldRequests : List ℚ → ℚ → List ℚ
  | [], _ => []
  | t :: rest, now => if t < now - windowMs then cleanOldRequests rest now else t :: rest

/-- `calculateDelay(now)`.  `rand` stands for the sampled `Math.random()`
value of this call.  With an empty window `requestTimestamps[length - 1]`
is `undefined` and the whole computation collapses to NaN. -/
def calculateDelay (cfg : RateLimiterConfig) (window : List ℚ) (now rand : ℚ) : JSNum :=
  let w := cleanOldRequests window now
  let lastRequest : JSNum := match w.getLast? with | none => .nan | some t => .num t
  let timeSinceLastRequest := JSNum.sub (.num now) lastRequest
  let minRequiredDelay := JSNum.jmax (.num 0) (JSNum.sub (.num cfg.minDelayMs) timeSinceLastRequest)
  let baseDelay :=
    if cfg.requestsPerMinute ≤ w.length then
      let oldestRequest : JSNum := match w.head? with | none => .nan | some t => .num t
      JSNum.jmax (JSNum.sub (JSNum.add oldestRequest (.num windowMs)) (.num now)) minRequiredDelay
    else
      minRequiredDelay
  JSNum.add baseDelay (.num (rand * cfg.jitterMs))

structure RateLimiterStats where
  requestsInWindow : Nat
  currentDelayMs : JSNum
  deriving Repr, DecidableEq

/-- `getStats()`: purge old entries, report window occupancy and the delay a
call would currently incur.  Returns the stats together with the state of
the timestamp array after the call. -/
def rlGetStats (cfg : RateLimiterConfig) (window : List ℚ) (now rand : ℚ) :
    RateLimiterStats × List ℚ :=
  let w := cleanOldRequests window now
  ({ requestsInWindow := w.length, currentDelayMs := calculateDelay cfg w now rand }, w)

/-- `acquire()`'s effect on the timestamp window: an empty window records the
call time immediately; otherwise old entries are purged (inside
`calculateDelay`) and the post-delay time `tAfter` is pushed.  Exactly one
timestamp is appended either way. -/
def rlAcquire (window : List ℚ) (tNow tAfter : ℚ) : List ℚ :=
  if window.isEmpty then window ++ [tNow]
  else cleanOldRequests window tNow ++ [tAfter]

/-! ## Circuit breaker (`src/reliability/circuit-breaker.ts`) -/

inductive CircuitState where
  | CLOSED
  | OPEN
  | HALF_OPEN
  deriving Repr, DecidableEq

structure CircuitBreakerConfig where
  failureThreshold : Nat
  resetTimeoutMs : Nat
  halfOpenRequests : Nat
  deriving Repr

structure CBState where
  state : CircuitState
  consecutiveFailures : Nat
  lastFailureTime : Option Nat
  probeInProgress : Bool
  deriving Repr, DecidableEq

/-- The closure's initial state in `createCircuitBreaker`. -/
def cbInit : CBState :=
  { state := .CLOSED, consecutiveFailures := 0, lastFailureTime := none, probeInProgress := false }

/-- The lazy OPEN→HALF_OPEN transition performed at the top of `getStats()`
(and hence of every `execute()`).  The JS guard `lastFailureTime && …` is a
truthiness test, so a zero timestamp is treated as unset. -/
def cbCheckTransition (cfg : CircuitBreakerConfig) (now : Nat) (s : CBState) : CBState :=
  match s.state, s.lastFailureTime with
  | .OPEN, some t =>
    if t ≠ 0 ∧ t + cfg.resetTimeoutMs ≤ now then
      { s with state := .HALF_OPEN, probeInProgress := false }
    else s
  | _, _ => s

/-- `getStats()`: the reported record is the (transitioned) state itself. -/
def cbGetStats (cfg : CircuitBreakerConfig) (now : Nat) (s : CBState) : CBState :=
  cbCheckTransition cfg now s

def recordSuccess (s : CBState) : CBState :=
  { s with state := .CLOSED, consecutiveFailures := 0, probeInProgress := false }

def recordFailure (cfg : CircuitBreakerConfig) (now : Nat) (s : CBState) : CBState :=
  let cf := s.consecutiveFailures + 1
  { s with
    consecutiveFailures := cf
    lastFailureTime := some now
    state := if cfg.failureThreshold ≤ cf then .OPEN else s.state
    probeInProgress := false }

/-- The synchronous prefix of `execute(fn)`: the lazy transition, the
OPEN / HALF_OPEN-busy rejections, and marking the probe in flight.  Returns
`Except.error ()` for the `CircuitOpenError` rejections, or the state in
which `fn` starts running. -/
def cbTryBegin (cfg : CircuitBreakerConfig) (now : Nat) (s : CBState) : Except Unit CBState :=
  let s1 := cbCheckTransition cfg now s
  if s1.state = .OPEN then .error ()
  else if s1.state = .HALF_OPEN ∧ s1.probeInProgress = true then .error ()
  else .ok (if s1.state = .HALF_OPEN then { s1 with probeInProgress := true } else s1)

/-- The continuation of `execute(fn)` once the probe settles: `recordSuccess`
on a resolved `fn`, `recordFailure` on a rejected one. -/
def cbSettle (cfg : CircuitBreakerConfig) (now : Nat) (success : Bool) (s : CBState) : CBState :=
  if success then recordSuccess s else recordFailure cfg now s

inductive CBResult (E T : Type) where
  | rejected
  | ok (v : T)
  | failed (e : E)
  deriving Repr

/-- `execute(fn)` with `fn` resolving immediately to `outcome`: begin, run,
settle.  `rejected` is the `CircuitOpenError` path, which never looks at
`outcome`. -/
def cbExecute {E T : Type} (cfg : CircuitBreakerConfig) (now : Nat) (outcome : Except E T)
    (s : CBState) : CBResult E T × CBState :=
  match cbTryBegin cfg now s with
  | .error () => (.rejected, cbCheckTransition cfg now s)
  | .ok s2 =>
    match outcome with
    | .ok v => (.ok v, recordSuccess s2)
    | .error e => (.failed e, recordFailure cfg now s2)

/-! ## Reliability wrapper (`src/reliability/index.ts`) -/

structure ReliabilityConfigM where
  rateLimiter : RateLimiterConfig
  retry : RetryConfig
  circuitBreaker : CircuitBreakerConfig
  deriving Repr

/-- Observable wrapper events: one rate-limiter acquisition, and the
successive invocations of the wrapped `fn`. -/
inductive WEvent where
  | acquire
  | attempt (n : Nat)
  deriving Repr, DecidableEq

/-- The closure `() => circuitBreaker.execute(fn)` handed to
`retryWithBackoff`.  The threaded state is the breaker state plus the count
of actual `fn` invocations; `oracle k` is the outcome of the `k`-th
invocation (0-based).  A `rejected` breaker result becomes the thrown
`CircuitOpenError` and does not invoke `fn`. -/
def cbAsRetryFn {T : Type} (cfg : CircuitBreakerConfig) (now : Nat)
    (oracle : Nat → Except JsError T) : CBState × Nat → Except JsError T × (CBState × Nat) :=
  fun p =>
    match cbExecute cfg now (oracle p.2) p.1 with
    | (.rejected, s') => (.error circuitOpenError, (s', p.2))
    | (.ok v, s') => (.ok v, (s', p.2 + 1))
    | (.failed e, s') => (.error e, (s', p.2 + 1))

structure WrapperOutput (T : Type) where
  result : Except JsError (Option T)
  window : List ℚ
  breaker : CBState
  invocations : Nat
  retry : RetryResult T
  delays : List Nat
  trace : List WEvent

/-- `createReliabilityWrapper(...).execute(fn)`: await `rateLimiter.acquire()`
once, then run `retryWithBackoff(() => circuitBreaker.execute(fn), retry)`;
return the value on success, rethrow the final error on failure.  (On the
failure path `retry.error` is always set — see `RetryResult.discriminated` —
so the `getD` default is dead code.)  The trace records the sequencing:
the single acquisition, then the `fn` invocations made by the retry loop. -/
def executeWrapper {T : Type} (cfg : ReliabilityConfigM) (window : List ℚ) (tNow tAfter : ℚ)
    (cbNow : Nat) (cbs : CBState) (oracle : Nat → Except JsError T) : WrapperOutput T :=
  let window' := rlAcquire window tNow tAfter
  let out := retryWithBackoff (cbAsRetryFn cfg.circuitBreaker cbNow oracle) cfg.retry (cbs, 0)
  let r := out.1
  { result := if r.success then .ok r.value else .error (r.error.getD circuitOpenError)
    window := window'
    breaker := out.2.1.1
    invocations := out.2.1.2
    retry := r
    delays := out.2.2
    trace := WEvent.acquire :: (List.range out.2.1.2).map (fun i => WEvent.attempt (i + 1)) }

/-! ## Price-history storage (`src/storage/database.ts`, `src/storage/repository.ts`)

Tables are modelled as row lists in insertion order.  `database.ts`'s
`SCHEMA` declares `price_snapshots … UNIQUE(product_id, scraped_at)` (and no
`store_id` column), while `repository.ts` and `storage/types.ts` carry a
`store_id` on every snapshot; the rows below carry `store_id`, and the
uniqueness check below is the pair key that `SCHEMA` actually declares. -/

structure ProductRecord where
  product_id : String
  name : String
  brand : Option String
  category : String
  subcategory : Option String
  category_level2 : Option String
  origin : Option String
  sale_type : Option String
  first_seen : String
  last_seen : String
  deriving Repr, DecidableEq

/-- `upsertProduct`: `INSERT … ON CONFLICT(product_id) DO UPDATE` sets every
descriptive column plus `last_seen` from the excluded row and leaves
`first_seen` alone. -/
def upsertProduct (table : List ProductRecord) (p : ProductRecord) : List ProductRecord :=
  if table.any (fun q => q.product_id == p.product_id) then
    table.map (fun q =>
      if q.product_id == p.product_id then { p with first_seen := q.first_seen } else q)
  else
    table ++ [p]

def findProduct (table : List ProductRecord) (pid : String) : Option ProductRecord :=
  table.find? (fun q => q.product_id == pid)

structure PriceSnapshotRecord where
  product_id : String
  store_id : String
  scraped_at : String
  price : ℚ
  price_per_unit : Option ℚ
  unit_of_measure : Option String
  display_name : Option String
  available_in_store : Nat
  available_online : Nat
  promo_price : Option ℚ
  promo_price_per_unit : Option ℚ
  promo_type : Option String
  promo_description : Option String
  promo_requires_card : Option Nat
  promo_limit : Option Nat
  deriving Repr, DecidableEq

/-- `insertPriceSnapshot` as constrained by `SCHEMA`: the embedded engine
rejects a row whose `(product_id, scraped_at)` pair already exists —
`UNIQUE(product_id, scraped_at)` is the only uniqueness key the shipped
schema declares on `price_snapshots`. -/
def insertPriceSnapshot (table : List PriceSnapshotRecord) (s : PriceSnapshotRecord) :
    Except String (List PriceSnapshotRecord) :=
  if table.any (fun r => r.product_id == s.product_id && r.scraped_at == s.scraped_at) then
    .error "UNIQUE constraint failed: price_snapshots.product_id, price_snapshots.scraped_at"
  else
    .ok (table ++ [s])

/-! ## Checkpoint ledger (`src/storage/repository.ts`) -/

structure RunRow where
  id : Nat
  started_at : String
  completed_at : Option String
  status : String
  deriving Repr, DecidableEq

structure CategoryRunRow where
  run_id : Nat
  store_id : String
  category_slug : String
  status : String
  last_page : Option Nat
  product_count : Option Nat
  error : Option String
  deriving Repr, DecidableEq

structure LedgerDB where
  runs : List RunRow
  categoryRuns : List CategoryRunRow
  deriving Repr, DecidableEq

def emptyDB : LedgerDB := ⟨[], []⟩

/-- `AUTOINCREMENT` id for the next `scrape_runs` insert. -/
def nextRunId (db : LedgerDB) : Nat := (db.runs.foldl (fun m r => max m r.id) 0) + 1

/-- The pending work-item row that `createRun` inserts per category. -/
def pendingRow (runId : Nat) (storeId slug : String) : CategoryRunRow :=
  ⟨runId, storeId, slug, "pending", none, none, none⟩

/-- `createRun` executes `1 + categories.length` single-row inserts with no
enclosing transaction: first the run row, then one `category_runs` row per
category, in order.  `createRunPartial db … k` is the database state after
the first `k` of those inserts — the state an exception at that point leaves
behind, since without a transaction nothing rolls back. -/
def createRunPartial (db : LedgerDB) (storeId startedAt : String) (categories : List String)
    (k : Nat) : LedgerDB :=
  if k = 0 then db
  else
    let runId := nextRunId db
    { runs := db.runs ++ [⟨runId, startedAt, none, "in_progress"⟩],
      categoryRuns := db.categoryRuns ++
        (categories.take (k - 1)).map (fun slug => pendingRow runId storeId slug) }

/-- `createRun(dbPath, storeId, categories)`: all inserts complete; returns
`lastInsertRowid` of the run insert and the final state. -/
def createRun (db : LedgerDB) (storeId startedAt : String) (categories : List String) :
    Nat × LedgerDB :=
  (nextRunId db, createRunPartial db storeId startedAt categories (1 + categories.length))

structure CategoryRunUpdate where
  status : String
  lastPage : Option Nat := none
  productCount : Option Nat := none
  error : Option String := none
  deriving Repr, DecidableEq

/-- `updateCategoryRun`: `UPDATE category_runs SET status, last_page,
product_count, error WHERE run_id AND store_id AND category_slug` — absent
update fields are written as NULL (`update.lastPage ?? null`). -/
def updateCategoryRun (db : LedgerDB) (runId : Nat) (storeId slug : String)
    (u : CategoryRunUpdate) : LedgerDB :=
  { db with categoryRuns := db.categoryRuns.map (fun r =>
      if r.run_id == runId && r.store_id == storeId && r.category_slug == slug then
        { r with
          status := u.status
          last_page := u.lastPage
          product_count := u.productCount
          error := u.error }
      else r) }

/-- Lookup of a single work-item row by its `(run, store, category)` key —
the key by which `updateCategoryRun` addresses rows and on which the schema
declares uniqueness. -/
def findItem (db : LedgerDB) (runId : Nat) (storeId slug : String) : Option CategoryRunRow :=
  db.categoryRuns.find? (fun r =>
    r.run_id == runId && r.store_id == storeId && r.category_slug == slug)

/-- The terminal row `scrapeCategory` leaves for a work item: `completed`
with the page count and product count, or `failed` with the error text. -/
def terminalRow (runId : Nat) (storeId : String) (maxPages : Nat) (slug : String) :
    Except String Nat → CategoryRunRow
  | .ok n => ⟨runId, storeId, slug, "completed", some maxPages, some n, none⟩
  | .error msg => ⟨runId, storeId, slug, "failed", none, none, some msg⟩

/-- `completeRun`: stamp the run `completed` with a completion time. -/
def completeRun (db : LedgerDB) (runId : Nat) (now : String) : LedgerDB :=
  { db with runs := db.runs.map (fun r =>
      if r.id == runId then { r with status := "completed", completed_at := some now } else r) }

structure CategoryRunRecordV where
  categorySlug : String
  status : String
  lastPage : Option Nat
  productCount : Option Nat
  error : Option String
  deriving Repr, DecidableEq

structure RunStatusV where
  id : Nat
  startedAt : String
  completedAt : Option String
  status : String
  totalCategories : Nat
  completedCategories : Nat
  categories : List CategoryRunRecordV
  deriving Repr, DecidableEq

/-- `getRunStatus`. -/
def getRunStatus (db : LedgerDB) (runId : Nat) : Option RunStatusV :=
  match db.runs.find? (fun r => r.id == runId) with
  | none => none
  | some run =>
    let categories := (db.categoryRuns.filter (fun c => c.run_id == runId)).map
      (fun c => CategoryRunRecordV.mk c.category_slug c.status c.last_page c.product_count c.error)
    some { id := run.id, startedAt := run.started_at, completedAt := run.completed_at,
           status := run.status, totalCategories := categories.length,
           completedCategories := (categories.filter (fun c => c.status == "completed")).length,
           categories := categories }

structure IncompleteRunV where
  id : Nat
  startedAt : String
  pendingCategories : List String
  deriving Repr, DecidableEq

/-- `ORDER BY started_at DESC LIMIT 1` over the `in_progress` runs: a row
with maximal `started_at`. -/
def latestInProgress (runs : List RunRow) : Option RunRow :=
  (runs.filter (fun r => r.status == "in_progress")).foldl
    (fun acc r =>
      match acc with
      | none => some r
      | some b => if b.started_at < r.started_at then some r else some b)
    none

/-- `getIncompleteRun`. -/
def getIncompleteRun (db : LedgerDB) : Option IncompleteRunV :=
  match latestInProgress db.runs with
  | none => none
  | some run =>
    some ⟨run.id, run.started_at,
      ((db.categoryRuns.filter (fun c =>
        c.run_id == run.id && (c.status == "pending" || c.status == "failed"))).map
        (·.category_slug))⟩

/-! ## Resume resolver (`src/resume.ts`) -/

structure FlatCategory where
  category0 : String
  category1 : String
  deriving Repr, DecidableEq

/-- The `"${category0} > ${category1}"` slug used as the work-item key. -/
def categoryPath (c : FlatCategory) : String := c.category0 ++ " > " ++ c.category1

structure ResumeOptions where
  resume : Bool
  runId : Option Nat
  deriving Repr, DecidableEq

structure ResumeResult where
  runId : Option Nat
  categoriesToScrape : List FlatCategory
  isResuming : Bool
  message : Option String
  allCompleted : Bool
  deriving Repr, DecidableEq

/-- `resolveResumeState(dbPath, selectedCategories, options)`.  The JS
optional `allCompleted` is `false` when absent. -/
def resolveResumeState (db : LedgerDB) (selectedCategories : List FlatCategory)
    (options : ResumeOptions) : Except String ResumeResult :=
  if !options.resume && options.runId.isNone then
    .ok ⟨none, selectedCategories, false, none, false⟩
  else
    let incompleteRunE : Except String (Option IncompleteRunV) :=
      match options.runId with
      | some rid =>
        match getRunStatus db rid with
        | none => .error ("Run " ++ toString rid ++ " not found")
        | some rs =>
          if rs.status == "completed" then
            .error ("Run " ++ toString rid ++ " is already completed")
          else
            .ok (some ⟨rs.id, rs.startedAt,
              ((rs.categories.filter (fun c =>
                c.status == "pending" || c.status == "failed")).map (·.categorySlug))⟩)
      | none => .ok (getIncompleteRun db)
    match incompleteRunE with
    | .error msg => .error msg
    | .ok none =>
      .ok ⟨none, selectedCategories, false, some "No incomplete run found, starting fresh", false⟩
    | .ok (some ir) =>
      let categoriesToScrape := selectedCategories.filter
        (fun cat => ir.pendingCategories.contains (categoryPath cat))
      if categoriesToScrape.isEmpty then
        .ok ⟨some ir.id, [], true, some "All categories already completed", true⟩
      else
        .ok ⟨some ir.id, categoriesToScrape, true,
          some ("Resuming run " ++ toString ir.id ++ " (started " ++ ir.startedAt ++ "), "
            ++ toString ir.pendingCategories.length ++ " categories remaining"), false⟩

/-! ## Orchestrator (`src/multi-scraper.ts`)

`scrapeCategory` marks the item `in_progress`, runs the scrape, saves the
products, and marks the item `completed` (with `lastPage = maxPages` and the
product count) or `failed` (with the error message) — the `try/catch` keeps
any exception local to the item.  `outcome` stands for the scrape's result:
the number of products, or the thrown error's message.  The multi-store
migration keys work items by `(run, store, category)`; the orchestrator
threads its single `storeId` through every ledger update. -/

def scrapeCategoryStep (db : LedgerDB) (runId : Nat) (storeId : String) (maxPages : Nat)
    (cat : FlatCategory) (outcome : Except String Nat) : LedgerDB :=
  let path := categoryPath cat
  let db1 := updateCategoryRun db runId storeId path { status := "in_progress" }
  match outcome with
  | .ok productCount =>
    updateCategoryRun db1 runId storeId path
      { status := "completed", lastPage := some maxPages, productCount := some productCount }
  | .error msg =>
    updateCategoryRun db1 runId storeId path { status := "failed", error := some msg }

/-- `MultiCategoryScraper.run()` starting a fresh run: create the run over
the selected categories, scrape every item in order (each item's outcome
given by `oracle`), then mark the run completed — unconditionally, whether
or not items failed. -/
def multiScraperRun (storeId startedAt completedAt : String) (maxPages : Nat)
    (cats : List FlatCategory) (oracle : FlatCategory → Except String Nat) : LedgerDB × Nat :=
  let r := createRun emptyDB storeId startedAt (cats.map categoryPath)
  let db2 := cats.foldl
    (fun db cat => scrapeCategoryStep db r.1 storeId maxPages cat (oracle cat)) r.2
  (completeRun db2 r.1 completedAt, r.1)

/-- Invariant of the retry loop: attempt counts stay in range, the recorded
delays follow the exponential-backoff formula, and the result is a
discriminated success/failure record. -/
lemma retryLoop_spec {σ T : Type} (fn : σ → Except JsError T × σ) (cfg : RetryConfig) :
    ∀ fuel attemptsSoFar s, attemptsSoFar ≤ cfg.maxRetries →
      fuel = cfg.maxRetries + 1 - attemptsSoFar →
      let out := retryLoop fn cfg fuel attemptsSoFar s
      (attemptsSoFar + 1 ≤ out.1.attempts ∧ out.1.attempts ≤ cfg.maxRetries + 1) ∧
      out.2.2 = (List.range (out.1.attempts - 1 - attemptsSoFar)).map
        (fun k => backoffDelay cfg (attemptsSoFar + k + 1)) ∧
      out.1.discriminated ∧
      (∀ e s₁, fn s = (Except.error e, s₁) → isRetryableError e = true →
        attemptsSoFar + 1 ≤ cfg.maxRetries → attemptsSoFar + 2 ≤ out.1.attempts) := by
  intro fuel
  induction fuel with
  | zero =>
    intro aSF s hle hfuel
    omega
  | succ fuel ih =>
    intro aSF s hle hfuel
    rcases hfn : fn s with ⟨res, s'⟩
    simp only [retryLoop, hfn]
    cases res with
    | ok v =>
      refine ⟨by dsimp only; omega, by simp, Or.inl ⟨rfl, ⟨v, rfl⟩, rfl⟩, ?_⟩
      intro e' s₁' hfn' _ _
      simp at hfn'
    | error e =>
      dsimp only
      by_cases hre : isRetryableError e
      · rw [if_neg (by simp [hre])]
        by_cases hmax : aSF + 1 > cfg.maxRetries
        · rw [if_pos hmax]
          refine ⟨by dsimp only; omega, by simp, Or.inr ⟨rfl, rfl, e, rfl⟩, ?_⟩
          intro e' s₁' _ _ hle'
          omega
        · rw [if_neg hmax]
          obtain ⟨⟨hlo, hhi⟩, hds, hdisc, _⟩ := ih (aSF + 1) s' (by omega) (by omega)
          dsimp only at hds hdisc ⊢
          refine ⟨⟨by omega, hhi⟩, ?_, hdisc, by intro e' s₁' _ _ _; omega⟩
          rw [hds]
          have hrange : (retryLoop fn cfg fuel (aSF + 1) s').1.attempts - 1 - aSF
              = ((retryLoop fn cfg fuel (aSF + 1) s').1.attempts - 1 - (aSF + 1)) + 1 := by
            omega
          rw [hrange, List.range_succ_eq_map, List.map_cons, List.map_map]
          congr 1
          apply List.map_congr_left
          intro k _
          congr 1
          omega
      · rw [if_pos (by simp [hre])]
        refine ⟨by dsimp only; omega, by simp, Or.inr ⟨rfl, rfl, e, rfl⟩, ?_⟩
        intro e' s₁' hfn' hre' _
        simp only [Prod.mk.injEq, Except.error.injEq] at hfn'
        obtain ⟨rfl, rfl⟩ := hfn'
        exact absurd hre' hre

/-- The error classifier refuses to retry exactly the explicitly named
validation/authentication errors and 4xx client errors; everything else
(5xx, message patterns, unclassified) is retryable. -/
lemma isRetryableError_false_iff (e : JsError) :
    isRetryableError e = false ↔
      (e.name = "ValidationError" ∨ e.name = "AuthenticationError" ∨
        ∃ c, e.statusCode = some c ∧ c ≠ 0 ∧ 400 ≤ c ∧ c < 500) := by
  unfold isRetryableError
  split_ifs with h1 h2 h3 h4
  · exact iff_of_true rfl (by tauto)
  · refine iff_of_true rfl (Or.inr (Or.inr ?_))
    cases hsc : e.statusCode with
    | none => rw [hsc] at h2; simp at h2
    | some c => exact ⟨c, rfl, by simpa [hsc] using h2⟩
  all_goals
    refine iff_of_false (by simp) ?_
    rintro (hn | hn | ⟨c, hsc, hc⟩)
    · exact h1 (Or.inl hn)
    · exact h1 (Or.inr hn)
    · exact h2 (by simp only [hsc, Option.getD_some]; exact hc)

/-- First call raising a non-retryable error: `retryWithBackoff` gives up
immediately with exactly one attempt, no delay, and the original error. -/
lemma retryWithBackoff_nonretryable {σ T : Type} (fn : σ → Except JsError T × σ)
    (cfg : RetryConfig) (s : σ) (e : JsError) (s₁ : σ)
    (hfn : fn s = (Except.error e, s₁)) (hre : isRetryableError e = false) :
    retryWithBackoff fn cfg s
      = ({ success := false, value := none, error := some e, attempts := 1 }, s₁, []) := by
  unfold retryWithBackoff
  simp only [retryLoop, hfn]
  rw [if_pos (by simp [hre])]

/-- First call raising a retryable error with at least one retry configured:
the function is attempted again. -/
lemma retryWithBackoff_retryable {σ T : Type} (fn : σ → Except JsError T × σ)
    (cfg : RetryConfig) (s : σ) (e : JsError) (s₁ : σ)
    (hfn : fn s = (Except.error e, s₁)) (hre : isRetryableError e = true)
    (hmax : 1 ≤ cfg.maxRetries) :
    2 ≤ (retryWithBackoff fn cfg s).1.attempts := by
  obtain ⟨_, _, _, hstep⟩ := retryLoop_spec fn cfg (cfg.maxRetries + 1) 0 s
    (by omega) (by omega)
  exact hstep e s₁ hfn hre (by omega)

/-- **C4.** `retryWithBackoff(fn, config)` runs `fn` at most `1 + maxRetries`
times; the delay before retry `k` equals
`min(initialDelayMs × backoffMultiplier^(k−1), maxDelayMs)`; an error named
`ValidationError` or `AuthenticationError`, or carrying a 4xx status code —
exactly the errors the classifier marks non-retryable — causes `fn` to be
attempted exactly once with no retry, while retryable errors (5xx,
network/timeout patterns, unclassified) are retried while retries remain;
and the outcome is always a discriminated success/failure record with the
attempt count, never an escaping exception. -/
theorem c4_retryWithBackoff {σ T : Type} (fn : σ → Except JsError T × σ)
    (cfg : RetryConfig) (s : σ) :
    (1 ≤ (retryWithBackoff fn cfg s).1.attempts ∧
      (retryWithBackoff fn cfg s).1.attempts ≤ 1 + cfg.maxRetries) ∧
    (retryWithBackoff fn cfg s).2.2 =
      (List.range ((retryWithBackoff fn cfg s).1.attempts - 1)).map
        (fun k => min (cfg.initialDelayMs * cfg.backoffMultiplier ^ k) cfg.maxDelayMs) ∧
    (retryWithBackoff fn cfg s).1.discriminated ∧
    (∀ e s₁, fn s = (Except.error e, s₁) → isRetryableError e = false →
      retryWithBackoff fn cfg s
        = ({ success := false, value := none, error := some e, attempts := 1 }, s₁, [])) ∧
    (∀ e s₁, fn s = (Except.error e, s₁) → isRetryableError e = true →
      1 ≤ cfg.maxRetries → 2 ≤ (retryWithBackoff fn cfg s).1.attempts) ∧
    (∀ e : JsError, isRetryableError e = false ↔
      (e.name = "ValidationError" ∨ e.name = "AuthenticationError" ∨
        ∃ c, e.statusCode = some c ∧ c ≠ 0 ∧ 400 ≤ c ∧ c < 500)) := by
  unfold retryWithBackoff
  obtain ⟨⟨h1, h2⟩, hds, hdisc, _⟩ := retryLoop_spec fn cfg (cfg.maxRetries + 1) 0 s
    (by omega) rfl
  refine ⟨⟨h1, by omega⟩, ?_, hdisc, ?_, ?_, isRetryableError_false_iff⟩
  · rw [hds]
    simp only [Nat.sub_zero]
    apply List.map_congr_left
    intro k _
    simp [backoffDelay]
  · intro e s₁ hfn hre
    exact retryWithBackoff_nonretryable fn cfg s e s₁ hfn hre
  · intro e s₁ hfn hre hm
    exact retryWithBackoff_retryable fn cfg s e s₁ hfn hre hm

/-- Witness for C4 at a concrete input: a function that always raises a
404-style client error under the default retry configuration is attempted
exactly once and its error is surfaced in the failure record. -/
theorem c4_retryWithBackoff_witness :
    retryWithBackoff
        (fun s : Unit => ((Except.error ⟨"Error", "not found", some 404⟩ : Except JsError Unit), s))
        ⟨3, 1000, 30000, 2⟩ ()
      = ({ success := false, value := (none : Option Unit),
           error := some ⟨"Error", "not found", some 404⟩, attempts := 1 }, (), []) :=
  ((c4_retryWithBackoff
      (fun s : Unit => ((Except.error ⟨"Error", "not found", some 404⟩ : Except JsError Unit), s))
      ⟨3, 1000, 30000, 2⟩ ()).2.2.2.1
    ⟨"Error", "not found", some 404⟩ () rfl (by decide))

/-- **C3.** The circuit breaker state machine: starting CLOSED with
`failureThreshold = 3`, three consecutive failing `execute` calls leave it
OPEN and a fourth call is rejected without invoking the wrapped function
(the rejection and resulting state are the same whatever the function would
return); once `resetTimeoutMs` has elapsed since the last failure, a state
inspection (hence also the `getStats()` at the top of `execute`) flips it to
HALF_OPEN, where one probe may begin and a second call arriving while the
probe is in flight is rejected; probe success returns it to CLOSED with the
consecutive-failure counter reset to 0, probe failure returns it to OPEN. -/
theorem c3_circuitBreaker (R t1 t2 t3 t4 t5 : Nat)
    (cfg : CircuitBreakerConfig) (hcfg : cfg = ⟨3, R, 1⟩)
    (s1 s2 s3 : CBState)
    (hs1 : s1 = (cbExecute cfg t1 (Except.error () : Except Unit Unit) cbInit).2)
    (hs2 : s2 = (cbExecute cfg t2 (Except.error () : Except Unit Unit) s1).2)
    (hs3 : s3 = (cbExecute cfg t3 (Except.error () : Except Unit Unit) s2).2)
    (ht3 : 0 < t3) (ht4 : t4 < t3 + R) (ht5 : t3 + R ≤ t5) :
    cbInit.state = CircuitState.CLOSED
    ∧ s3.state = CircuitState.OPEN
    ∧ s3.consecutiveFailures = 3
    ∧ (∀ o : Except Unit Unit, cbExecute cfg t4 o s3 = (CBResult.rejected, s3))
    ∧ (cbGetStats cfg t5 s3).state = CircuitState.HALF_OPEN
    ∧ (∃ sp : CBState,
        cbTryBegin cfg t5 (cbGetStats cfg t5 s3) = Except.ok sp
        ∧ sp.probeInProgress = true
        ∧ (∀ t6, cbTryBegin cfg t6 sp = Except.error ())
        ∧ (cbSettle cfg t5 true sp).state = CircuitState.CLOSED
        ∧ (cbSettle cfg t5 true sp).consecutiveFailures = 0
        ∧ (∀ t7, (cbSettle cfg t7 false sp).state = CircuitState.OPEN)) := by
  subst hcfg
  have e1 : (cbExecute (⟨3, R, 1⟩ : CircuitBreakerConfig) t1
      (Except.error () : Except Unit Unit) cbInit).2
      = ⟨CircuitState.CLOSED, 1, some t1, false⟩ := by
    simp [cbExecute, cbTryBegin, cbCheckTransition, cbInit, recordFailure]
  have e2 : (cbExecute (⟨3, R, 1⟩ : CircuitBreakerConfig) t2
      (Except.error () : Except Unit Unit) (⟨CircuitState.CLOSED, 1, some t1, false⟩ : CBState)).2
      = ⟨CircuitState.CLOSED, 2, some t2, false⟩ := by
    simp [cbExecute, cbTryBegin, cbCheckTransition, recordFailure]
  have e3 : (cbExecute (⟨3, R, 1⟩ : CircuitBreakerConfig) t3
      (Except.error () : Except Unit Unit) (⟨CircuitState.CLOSED, 2, some t2, false⟩ : CBState)).2
      = ⟨CircuitState.OPEN, 3, some t3, false⟩ := by
    simp [cbExecute, cbTryBegin, cbCheckTransition, recordFailure]
  subst hs1; subst hs2; subst hs3
  rw [e1, e2, e3]
  have hnoflip : cbCheckTransition (⟨3, R, 1⟩ : CircuitBreakerConfig) t4
      (⟨CircuitState.OPEN, 3, some t3, false⟩ : CBState)
      = ⟨CircuitState.OPEN, 3, some t3, false⟩ := by
    simp only [cbCheckTransition]
    rw [if_neg (by omega)]
  have hflip : cbCheckTransition (⟨3, R, 1⟩ : CircuitBreakerConfig) t5
      (⟨CircuitState.OPEN, 3, some t3, false⟩ : CBState)
      = ⟨CircuitState.HALF_OPEN, 3, some t3, false⟩ := by
    simp only [cbCheckTransition]
    rw [if_pos (show t3 ≠ 0 ∧ t3 + R ≤ t5 from ⟨by omega, ht5⟩)]
  refine ⟨rfl, rfl, rfl, ?_, ?_, ?_⟩
  · intro o
    simp [cbExecute, cbTryBegin, hnoflip]
  · simp [cbGetStats, hflip]
  · refine ⟨⟨CircuitState.HALF_OPEN, 3, some t3, true⟩, ?_, rfl, ?_, ?_, ?_, ?_⟩
    · rw [cbGetStats, hflip]
      simp [cbTryBegin, cbCheckTransition]
    · intro t6
      simp [cbTryBegin, cbCheckTransition]
    · simp [cbSettle, recordSuccess]
    · simp [cbSettle, recordSuccess]
    · intro t7
      simp [cbSettle, recordFailure]

/-- Witness for C3 at concrete times: with `resetTimeoutMs = 100` and
failures at 10, 20, 30, an inspection at time 130 finds the breaker
HALF_OPEN. -/
theorem c3_circuitBreaker_witness :
    (cbGetStats ⟨3, 100, 1⟩ 130
      ((cbExecute ⟨3, 100, 1⟩ 30 (Except.error () : Except Unit Unit)
        ((cbExecute ⟨3, 100, 1⟩ 20 (Except.error () : Except Unit Unit)
          ((cbExecute ⟨3, 100, 1⟩ 10 (Except.error () : Except Unit Unit) cbInit).2)).2)).2)).state
      = CircuitState.HALF_OPEN :=
  (c3_circuitBreaker 100 10 20 30 50 130 ⟨3, 100, 1⟩ rfl _ _ _ rfl rfl rfl
    (by decide) (by decide) (by decide)).2.2.2.2.1

/-- Purging expired timestamps never adds entries: the cleaned window is a
suffix of the original. -/
lemma cleanOldRequests_suffix (w : List ℚ) (now : ℚ) : cleanOldRequests w now <:+ w := by
  induction w with
  | nil => simp [cleanOldRequests]
  | cons t rest ih =>
    simp only [cleanOldRequests]
    split_ifs with h
    · exact ih.trans (List.suffix_cons t rest)
    · exact List.suffix_refl _

/-- If each call of `fn` grows a state measure by at most one, the retry
loop grows it by at most the number of loop iterations. -/
lemma retryLoop_counter {σ T : Type} (fn : σ → Except JsError T × σ) (meas : σ → Nat)
    (hfn : ∀ s, meas (fn s).2 ≤ meas s + 1) (cfg : RetryConfig) :
    ∀ fuel aSF s, aSF ≤ (retryLoop fn cfg fuel aSF s).1.attempts ∧
      meas (retryLoop fn cfg fuel aSF s).2.1 ≤
        meas s + ((retryLoop fn cfg fuel aSF s).1.attempts - aSF) := by
  intro fuel
  induction fuel with
  | zero => intro aSF s; simp [retryLoop]
  | succ fuel ih =>
    intro aSF s
    rcases hfn' : fn s with ⟨res, s'⟩
    have hm : meas s' ≤ meas s + 1 := by
      have h := hfn s
      rw [hfn'] at h
      exact h
    simp only [retryLoop, hfn']
    cases res with
    | ok v => exact ⟨by dsimp only; omega, by dsimp only; omega⟩
    | error e =>
      dsimp only
      by_cases hre : isRetryableError e
      · rw [if_neg (by simp [hre])]
        by_cases hmax : aSF + 1 > cfg.maxRetries
        · rw [if_pos hmax]
          exact ⟨by dsimp only; omega, by dsimp only; omega⟩
        · rw [if_neg hmax]
          obtain ⟨h1, h2⟩ := ih (aSF + 1) s'
          exact ⟨by dsimp only; omega, by dsimp only; omega⟩
      · rw [if_pos (by simp [hre])]
        exact ⟨by dsimp only; omega, by dsimp only; omega⟩

/-- Each call of the breaker-wrapped retry function invokes the underlying
`fn` at most once (rejections invoke it zero times). -/
lemma cbAsRetryFn_counter {T : Type} (cfg : CircuitBreakerConfig) (now : Nat)
    (oracle : Nat → Except JsError T) (p : CBState × Nat) :
    ((cbAsRetryFn cfg now oracle p).2).2 ≤ p.2 + 1 := by
  unfold cbAsRetryFn
  rcases h : cbExecute cfg now (oracle p.2) p.1 with ⟨res, s'⟩
  cases res <;> simp

/-- A list of attempt events contains no acquisition event. -/
lemma attempt_map_count (l : List ℕ) :
    (l.map (fun i => WEvent.attempt (i + 1))).count WEvent.acquire = 0 := by
  simp [List.count_eq_zero, List.mem_map]

/-- The wrapper's result expression on the failure path. -/
lemma wrapperResult_of_fail {T : Type} (r : RetryResult T) (e : JsError)
    (hs : r.success = false) (he : r.error = some e) :
    (if r.success then Except.ok r.value
      else Except.error (r.error.getD circuitOpenError)) = (Except.error e : Except JsError (Option T)) := by
  rw [hs, he]
  simp

/-- The wrapper's result expression on the success path. -/
lemma wrapperResult_of_succ {T : Type} (r : RetryResult T) (hs : r.success = true) :
    (if r.success then Except.ok r.value
      else Except.error (r.error.getD circuitOpenError)) = (Except.ok r.value : Except JsError (Option T)) := by
  rw [hs]
  simp

/-- **C2.** Every `execute(fn)` of the reliability wrapper acquires the rate
limiter exactly once, before any attempt of `fn`, and then runs
`retryWithBackoff` around `CircuitBreaker.execute(fn)`: the timestamp window
afterwards is the (purged) previous window plus exactly one new entry — an
expression independent of the wrapped function and of how many retry
attempts were made — the trace starts with the single acquisition followed
only by attempt events, retries are bounded by the retry budget, and on
exhausted failure the final error is rethrown to the caller. -/
theorem c2_executeWrapper {T : Type} (cfg : ReliabilityConfigM) (window : List ℚ)
    (tNow tAfter : ℚ) (cbNow : Nat) (cbs : CBState) (oracle : Nat → Except JsError T) :
    (executeWrapper cfg window tNow tAfter cbNow cbs oracle).window
        = (if window.isEmpty then window else cleanOldRequests window tNow)
          ++ [if window.isEmpty then tNow else tAfter]
    ∧ (if window.isEmpty then window else cleanOldRequests window tNow) <:+ window
    ∧ (executeWrapper cfg window tNow tAfter cbNow cbs oracle).trace.head?
        = some WEvent.acquire
    ∧ (executeWrapper cfg window tNow tAfter cbNow cbs oracle).trace.count WEvent.acquire = 1
    ∧ (∀ ev ∈ (executeWrapper cfg window tNow tAfter cbNow cbs oracle).trace.tail,
        ∃ n, ev = WEvent.attempt n)
    ∧ (executeWrapper cfg window tNow tAfter cbNow cbs oracle).retry.attempts
        ≤ 1 + cfg.retry.maxRetries
    ∧ (executeWrapper cfg window tNow tAfter cbNow cbs oracle).invocations
        ≤ (executeWrapper cfg window tNow tAfter cbNow cbs oracle).retry.attempts
    ∧ ((executeWrapper cfg window tNow tAfter cbNow cbs oracle).retry.success = false →
        ∃ e, (executeWrapper cfg window tNow tAfter cbNow cbs oracle).retry.error = some e
          ∧ (executeWrapper cfg window tNow tAfter cbNow cbs oracle).result = Except.error e)
    ∧ ((executeWrapper cfg window tNow tAfter cbNow cbs oracle).retry.success = true →
        (executeWrapper cfg window tNow tAfter cbNow cbs oracle).result
          = Except.ok (executeWrapper cfg window tNow tAfter cbNow cbs oracle).retry.value) := by
  obtain ⟨⟨hat1, hat2⟩, _, hdisc, _⟩ :=
    retryLoop_spec (cbAsRetryFn cfg.circuitBreaker cbNow oracle) cfg.retry
      (cfg.retry.maxRetries + 1) 0 (cbs, 0) (by omega) rfl
  obtain ⟨_, hcount⟩ :=
    retryLoop_counter (cbAsRetryFn cfg.circuitBreaker cbNow oracle) Prod.snd
      (fun p => cbAsRetryFn_counter cfg.circuitBreaker cbNow oracle p) cfg.retry
      (cfg.retry.maxRetries + 1) 0 (cbs, 0)
  refine ⟨?_, ?_, rfl, ?_, ?_, ?_, ?_, ?_, ?_⟩
  · show rlAcquire window tNow tAfter = _
    unfold rlAcquire
    split_ifs <;> rfl
  · split_ifs with h
    · exact List.suffix_refl _
    · exact cleanOldRequests_suffix window tNow
  · show (WEvent.acquire :: _).count WEvent.acquire = 1
    rw [List.count_cons_self, attempt_map_count]
  · intro ev hev
    simp only [executeWrapper, List.tail_cons, List.mem_map] at hev
    obtain ⟨i, _, hi⟩ := hev
    exact ⟨i + 1, hi.symm⟩
  · exact le_trans hat2 (by omega)
  · show (retryLoop (cbAsRetryFn cfg.circuitBreaker cbNow oracle) cfg.retry
        (cfg.retry.maxRetries + 1) 0 (cbs, 0)).2.1.2
      ≤ (retryLoop (cbAsRetryFn cfg.circuitBreaker cbNow oracle) cfg.retry
        (cfg.retry.maxRetries + 1) 0 (cbs, 0)).1.attempts
    simpa using hcount
  · intro hfail
    rcases hdisc with ⟨hs, _, _⟩ | ⟨_, _, e, he⟩
    · have hfail' : (retryLoop (cbAsRetryFn cfg.circuitBreaker cbNow oracle) cfg.retry
          (cfg.retry.maxRetries + 1) 0 (cbs, 0)).1.success = false := hfail
      rw [hs] at hfail'
      cases hfail'
    · exact ⟨e, he, wrapperResult_of_fail _ e hfail he⟩
  · intro hsucc
    exact wrapperResult_of_succ _ hsucc

/-- Witness for C2 at a concrete input: wrapping an operation that always
fails with a 500 error under `maxRetries = 1`, the wrapper's result is the
final error, rethrown. -/
theorem c2_executeWrapper_witness :
    ∃ e, (executeWrapper ⟨⟨17, 3000, 4500, 500⟩, ⟨1, 1000, 30000, 2⟩, ⟨5, 60000, 1⟩⟩
        [] 0 0 7 cbInit
        (fun _ => (Except.error ⟨"Error", "boom", some 500⟩ : Except JsError Unit))).retry.error
          = some e
      ∧ (executeWrapper ⟨⟨17, 3000, 4500, 500⟩, ⟨1, 1000, 30000, 2⟩, ⟨5, 60000, 1⟩⟩
          [] 0 0 7 cbInit
          (fun _ => (Except.error ⟨"Error", "boom", some 500⟩ : Except JsError Unit))).result
            = Except.error e :=
  (c2_executeWrapper ⟨⟨17, 3000, 4500, 500⟩, ⟨1, 1000, 30000, 2⟩, ⟨5, 60000, 1⟩⟩
      [] 0 0 7 cbInit
      (fun _ => (Except.error ⟨"Error", "boom", some 500⟩ : Except JsError Unit))).2.2.2.2.2.2.2.1
    (by decide)

/-- When every entry is older than the 60-second window, the purge empties
the list. -/
lemma cleanOldRequests_eq_nil {w : List ℚ} {now : ℚ}
    (h : ∀ t ∈ w, t < now - windowMs) : cleanOldRequests w now = [] := by
  induction w with
  | nil => rfl
  | cons t rest ih =>
    simp only [cleanOldRequests]
    rw [if_pos (h t (by simp))]
    exact ih (fun u hu => h u (by simp [hu]))

/-- With an empty (post-purge) window the delay computation is NaN:
`requestTimestamps[length-1]` is `undefined`, and NaN propagates through
the subtraction, `Math.max` and the jitter addition. -/
lemma calculateDelay_nil (cfg : RateLimiterConfig) (now rand : ℚ) :
    calculateDelay cfg [] now rand = JSNum.nan := by
  unfold calculateDelay
  simp only [cleanOldRequests]
  split_ifs <;> rfl

/-- **C10.** `getStats()` never consumes a rate-limit slot — the reported
window is the purged previous window, a suffix of what was recorded, with
nothing appended — and whenever the rolling 60-second window is empty
(before any `acquire()`, or after every recorded timestamp has aged past 60
seconds) it reports `currentDelayMs = NaN` rather than 0, because the delay
formula subtracts the timestamp of a last call that does not exist. -/
theorem c10_getStats_nan (cfg : RateLimiterConfig) (window : List ℚ) (now rand : ℚ) :
    (rlGetStats cfg window now rand).2 <:+ window
    ∧ (rlGetStats cfg window now rand).1.requestsInWindow
        = (cleanOldRequests window now).length
    ∧ ((∀ t ∈ window, t < now - windowMs) →
        (rlGetStats cfg window now rand).1.currentDelayMs = JSNum.nan
        ∧ (rlGetStats cfg window now rand).1.requestsInWindow = 0
        ∧ (rlGetStats cfg window now rand).2 = []) := by
  refine ⟨cleanOldRequests_suffix window now, rfl, ?_⟩
  intro h
  have hnil : cleanOldRequests window now = [] := cleanOldRequests_eq_nil h
  refine ⟨?_, ?_, ?_⟩
  · show calculateDelay cfg (cleanOldRequests window now) now rand = JSNum.nan
    rw [hnil]
    exact calculateDelay_nil cfg now rand
  · show (cleanOldRequests window now).length = 0
    rw [hnil]
    rfl
  · exact hnil

/-- Witness for C10 at a concrete input: two timestamps recorded at 0 and 1
have both aged out by `now = 100000`, and `getStats` reports a NaN delay
over an empty window. -/
theorem c10_getStats_nan_witness :
    (rlGetStats ⟨17, 3000, 4500, 500⟩ [0, 1] 100000 0).1.currentDelayMs = JSNum.nan
    ∧ (rlGetStats ⟨17, 3000, 4500, 500⟩ [0, 1] 100000 0).1.requestsInWindow = 0
    ∧ (rlGetStats ⟨17, 3000, 4500, 500⟩ [0, 1] 100000 0).2 = [] :=
  (c10_getStats_nan ⟨17, 3000, 4500, 500⟩ [0, 1] 100000 0).2.2 (by norm_num [windowMs])

/-- Looking up the conflicting key after the `DO UPDATE` pass: the stored
row is the new sighting with the old row's `first_seen`. -/
lemma findProduct_upsert_map (p : ProductRecord) :
    ∀ table q, findProduct table p.product_id = some q →
      findProduct (table.map (fun r =>
        if r.product_id == p.product_id then { p with first_seen := r.first_seen } else r))
        p.product_id = some { p with first_seen := q.first_seen } := by
  intro table
  induction table with
  | nil => intro q hq; simp [findProduct] at hq
  | cons r rest ih =>
    intro q hq
    by_cases hr : r.product_id == p.product_id
    · unfold findProduct at hq
      rw [List.find?_cons_of_pos (p := fun q : ProductRecord => q.product_id == p.product_id)
        _ hr] at hq
      obtain rfl : r = q := by injection hq
      unfold findProduct
      rw [List.map_cons, if_pos hr,
        List.find?_cons_of_pos (p := fun q : ProductRecord => q.product_id == p.product_id) _
          (by simp)]
    · unfold findProduct at hq
      rw [List.find?_cons_of_neg (p := fun q : ProductRecord => q.product_id == p.product_id)
        _ (by simpa using hr)] at hq
      unfold findProduct
      rw [List.map_cons, if_neg hr,
        List.find?_cons_of_neg (p := fun q : ProductRecord => q.product_id == p.product_id) _
          (by simpa using hr)]
      exact ih q hq

/-- **C6 (amended).** For every `upsertProduct` call whose `product_id`
already exists, the stored `first_seen` is unchanged (taken from the
existing row) while every descriptive field **and `last_seen`** are
overwritten with the new sighting's values — `last_seen` is set
unconditionally, so it does not only advance: it moves backward whenever
the new sighting carries an earlier timestamp (see the counterexample). -/
theorem c6_upsertProduct_amended (table : List ProductRecord) (p q : ProductRecord)
    (hq : findProduct table p.product_id = some q) :
    findProduct (upsertProduct table p) p.product_id
      = some { p with first_seen := q.first_seen } := by
  have hq' : List.find? (fun r : ProductRecord => r.product_id == p.product_id) table
      = some q := hq
  have hany : table.any (fun r => r.product_id == p.product_id) = true := by
    rw [List.any_eq_true]
    exact ⟨q, List.mem_of_find?_eq_some hq', by simpa using List.find?_some hq'⟩
  unfold upsertProduct
  rw [if_pos hany]
  exact findProduct_upsert_map p table q hq

/-- Witness for the amended C6 at a concrete input: re-upserting product
`p1` with new descriptive values keeps the original `first_seen` and takes
everything else — including `last_seen` — from the new row. -/
theorem c6_upsertProduct_amended_witness :
    findProduct (upsertProduct
        [⟨"p1", "Milk", none, "Chilled", none, none, none, none,
          "2024-01-01T00:00:00Z", "2024-02-01T00:00:00Z"⟩]
        ⟨"p1", "Milk 2L", some "Brand", "Chilled", none, none, none, none,
          "2024-03-01T00:00:00Z", "2024-01-15T00:00:00Z"⟩) "p1"
      = some ⟨"p1", "Milk 2L", some "Brand", "Chilled", none, none, none, none,
          "2024-01-01T00:00:00Z", "2024-01-15T00:00:00Z"⟩ :=
  c6_upsertProduct_amended
    [⟨"p1", "Milk", none, "Chilled", none, none, none, none,
      "2024-01-01T00:00:00Z", "2024-02-01T00:00:00Z"⟩]
    ⟨"p1", "Milk 2L", some "Brand", "Chilled", none, none, none, none,
      "2024-03-01T00:00:00Z", "2024-01-15T00:00:00Z"⟩
    ⟨"p1", "Milk", none, "Chilled", none, none, none, none,
      "2024-01-01T00:00:00Z", "2024-02-01T00:00:00Z"⟩
    (by decide)

/-- **C6 (counterexample).** The claim "the stored `last_seen` value only
advances forward" is false: upserting product `p1` whose stored `last_seen`
is `2024-02-01` with a sighting carrying `last_seen = 2024-01-15` leaves
the stored `last_seen` strictly earlier than before (ISO-8601 strings
compare lexicographically in timestamp order). -/
theorem c6_upsertProduct_counterexample :
    ∃ r : ProductRecord,
      findProduct (upsertProduct
          [⟨"p1", "Milk", none, "Chilled", none, none, none, none,
            "2024-01-01T00:00:00Z", "2024-02-01T00:00:00Z"⟩]
          ⟨"p1", "Milk", none, "Chilled", none, none, none, none,
            "2024-03-01T00:00:00Z", "2024-01-15T00:00:00Z"⟩) "p1" = some r
      ∧ r.last_seen = "2024-01-15T00:00:00Z"
      ∧ "2024-01-15T00:00:00Z".toList < "2024-02-01T00:00:00Z".toList :=
  ⟨⟨"p1", "Milk", none, "Chilled", none, none, none, none,
    "2024-01-01T00:00:00Z", "2024-01-15T00:00:00Z"⟩, by decide, by decide, by decide⟩

/-- **C1.** The shipped schema's only uniqueness key on `price_snapshots` is
`UNIQUE(product_id, scraped_at)` — the outlet is **not** part of the key (the
schema's `price_snapshots` has no `store_id` column at all).  Evaluating the
store at the claim's input: a first snapshot for (`prod-1`, `store-001`,
`t`) inserts fine; a same-triple duplicate is rejected with the uniqueness
violation, as the claim says — but so is a second snapshot differing **only
in outlet** (`store-002`), which the claim, the repo's own tests
(`repository.test.ts`: "allows same product with different store_ids") and
the multi-store design doc all require to succeed. -/
theorem c1_snapshot_uniqueness_divergence :
    insertPriceSnapshot []
        ⟨"prod-1", "store-001", "2024-01-01T00:00:00Z", 5, none, none, none,
          1, 1, none, none, none, none, none, none⟩
      = Except.ok
        [⟨"prod-1", "store-001", "2024-01-01T00:00:00Z", 5, none, none, none,
          1, 1, none, none, none, none, none, none⟩]
    ∧ insertPriceSnapshot
        [⟨"prod-1", "store-001", "2024-01-01T00:00:00Z", 5, none, none, none,
          1, 1, none, none, none, none, none, none⟩]
        ⟨"prod-1", "store-001", "2024-01-01T00:00:00Z", 5, none, none, none,
          1, 1, none, none, none, none, none, none⟩
      = Except.error
        "UNIQUE constraint failed: price_snapshots.product_id, price_snapshots.scraped_at"
    ∧ insertPriceSnapshot
        [⟨"prod-1", "store-001", "2024-01-01T00:00:00Z", 5, none, none, none,
          1, 1, none, none, none, none, none, none⟩]
        ⟨"prod-1", "store-002", "2024-01-01T00:00:00Z", 5, none, none, none,
          1, 1, none, none, none, none, none, none⟩
      = Except.error
        "UNIQUE constraint failed: price_snapshots.product_id, price_snapshots.scraped_at" :=
  ⟨rfl, rfl, rfl⟩

/-- **C5 (counterexample).** `createRun` wraps its `1 + n` inserts in no
transaction, so a failure after the first insert (the run row) commits the
run row with **none** of its work-item rows — refuting "either the run row
and all of its work-item rows exist, or none of them do". -/
theorem c5_createRun_counterexample :
    (createRunPartial emptyDB "store-001" "2024-01-01T00:00:00Z" ["Pantry > Rice"] 1).runs
      = [⟨1, "2024-01-01T00:00:00Z", none, "in_progress"⟩]
    ∧ (createRunPartial emptyDB "store-001" "2024-01-01T00:00:00Z" ["Pantry > Rice"] 1).categoryRuns
      = [] :=
  ⟨by decide, by decide⟩

/-- **C5 (amended).** `createRun` inserts the run row and then one pending
work-item row per category sequentially, with no enclosing transaction:
when it completes, the run row (`in_progress`) and all pending work items
exist; a failure after `k ≥ 1` inserts leaves the run row together with
exactly the first `k − 1` work-item rows — not all-or-nothing. -/
theorem c5_createRun_amended (db : LedgerDB) (storeId startedAt : String)
    (categories : List String) (k : Nat) (hk : 1 ≤ k) :
    (createRunPartial db storeId startedAt categories k).runs
      = db.runs ++ [⟨nextRunId db, startedAt, none, "in_progress"⟩]
    ∧ (createRunPartial db storeId startedAt categories k).categoryRuns
      = db.categoryRuns ++ (categories.take (k - 1)).map (pendingRow (nextRunId db) storeId)
    ∧ (createRun db storeId startedAt categories).2.categoryRuns
      = db.categoryRuns ++ categories.map (pendingRow (nextRunId db) storeId) := by
  have hne : ¬ (k = 0) := by omega
  refine ⟨?_, ?_, ?_⟩
  · unfold createRunPartial
    rw [if_neg hne]
  · unfold createRunPartial
    rw [if_neg hne]
  · unfold createRun createRunPartial
    rw [if_neg (by omega)]
    simp

/-- Witness for the amended C5 at a concrete input: interrupting after 2 of
the 3 inserts leaves the run row plus only the first of the two work
items. -/
theorem c5_createRun_amended_witness :
    (createRunPartial emptyDB "store-001" "t0" ["a", "b"] 2).runs
      = [⟨1, "t0", none, "in_progress"⟩]
    ∧ (createRunPartial emptyDB "store-001" "t0" ["a", "b"] 2).categoryRuns
      = [pendingRow 1 "store-001" "a"]
    ∧ (createRun emptyDB "store-001" "t0" ["a", "b"]).2.categoryRuns
      = [pendingRow 1 "store-001" "a", pendingRow 1 "store-001" "b"] := by
  obtain ⟨h1, h2, h3⟩ := c5_createRun_amended emptyDB "store-001" "t0" ["a", "b"] 2 (by decide)
  refine ⟨?_, ?_, ?_⟩
  · rw [h1]; rfl
  · rw [h2]; rfl
  · rw [h3]; rfl

/-! Evaluation lemmas for `resolveResumeState`, one per control path. -/

lemma rrs_no_flags (db : LedgerDB) (sel : List FlatCategory) :
    resolveResumeState db sel ⟨false, none⟩ = .ok ⟨none, sel, false, none, false⟩ := rfl

lemma rrs_notfound (db : LedgerDB) (sel : List FlatCategory) (rid : Nat) (b : Bool)
    (h : getRunStatus db rid = none) :
    resolveResumeState db sel ⟨b, some rid⟩
      = .error ("Run " ++ toString rid ++ " not found") := by
  unfold resolveResumeState
  simp [h]

lemma rrs_completed (db : LedgerDB) (sel : List FlatCategory) (rid : Nat) (b : Bool)
    (rs : RunStatusV) (h : getRunStatus db rid = some rs) (hc : rs.status = "completed") :
    resolveResumeState db sel ⟨b, some rid⟩
      = .error ("Run " ++ toString rid ++ " is already completed") := by
  unfold resolveResumeState
  simp [h, hc]

lemma rrs_target (db : LedgerDB) (sel : List FlatCategory) (rid : Nat) (b : Bool)
    (rs : RunStatusV) (h : getRunStatus db rid = some rs)
    (hc : (rs.status == "completed") = false) :
    resolveResumeState db sel ⟨b, some rid⟩
      = (if (sel.filter (fun cat =>
            ((rs.categories.filter (fun c => c.status == "pending" || c.status == "failed")).map
              (·.categorySlug)).contains (categoryPath cat))).isEmpty then
          Except.ok ⟨some rs.id, [], true, some "All categories already completed", true⟩
        else
          Except.ok ⟨some rs.id,
            sel.filter (fun cat =>
              ((rs.categories.filter (fun c => c.status == "pending" || c.status == "failed")).map
                (·.categorySlug)).contains (categoryPath cat)), true,
            some ("Resuming run " ++ toString rs.id ++ " (started " ++ rs.startedAt ++ "), "
              ++ toString ((rs.categories.filter (fun c =>
                  c.status == "pending" || c.status == "failed")).map (·.categorySlug)).length
              ++ " categories remaining"), false⟩) := by
  unfold resolveResumeState
  simp [h, hc]

lemma rrs_resume_none (db : LedgerDB) (sel : List FlatCategory)
    (h : getIncompleteRun db = none) :
    resolveResumeState db sel ⟨true, none⟩
      = .ok ⟨none, sel, false, some "No incomplete run found, starting fresh", false⟩ := by
  unfold resolveResumeState
  simp [h]

lemma rrs_resume_some (db : LedgerDB) (sel : List FlatCategory) (ir : IncompleteRunV)
    (h : getIncompleteRun db = some ir) :
    resolveResumeState db sel ⟨true, none⟩
      = (if (sel.filter (fun cat =>
            ir.pendingCategories.contains (categoryPath cat))).isEmpty then
          Except.ok ⟨some ir.id, [], true, some "All categories already completed", true⟩
        else
          Except.ok ⟨some ir.id,
            sel.filter (fun cat => ir.pendingCategories.contains (categoryPath cat)), true,
            some ("Resuming run " ++ toString ir.id ++ " (started " ++ ir.startedAt ++ "), "
              ++ toString ir.pendingCategories.length ++ " categories remaining"), false⟩) := by
  unfold resolveResumeState
  simp [h]

/-- The fold in `getIncompleteRun` never turns a `some` accumulator back
into `none`. -/
lemma foldl_latest_some (xs : List RunRow) (b : RunRow) :
    ∃ c, xs.foldl (fun acc r =>
      match acc with
      | none => some r
      | some b' => if b'.started_at < r.started_at then some r else some b') (some b)
      = some c := by
  induction xs generalizing b with
  | nil => exact ⟨b, rfl⟩
  | cons x xs ih =>
    simp only [List.foldl_cons]
    by_cases h : b.started_at < x.started_at
    · simpa [h] using ih x
    · simpa [h] using ih b

/-- `getIncompleteRun` finds nothing exactly when no run is `in_progress`. -/
lemma latestInProgress_eq_none_iff (runs : List RunRow) :
    latestInProgress runs = none
      ↔ runs.filter (fun r => r.status == "in_progress") = [] := by
  unfold latestInProgress
  cases hf : runs.filter (fun r => r.status == "in_progress") with
  | nil => simp
  | cons x xs =>
    simp only [List.foldl_cons]
    obtain ⟨c, hc⟩ := foldl_latest_some xs x
    constructor
    · intro h
      rw [hc] at h
      cases h
    · intro h
      cases h

/-- The fold in `getIncompleteRun` returns the initial candidate or a list
element, never decreases the candidate's `started_at`, and ends at least as
recent as every scanned row — the `ORDER BY started_at DESC LIMIT 1`
semantics. -/
lemma foldl_latest_spec (xs : List RunRow) (b : RunRow) :
    ∃ c, xs.foldl (fun acc r =>
        match acc with
        | none => some r
        | some b' => if b'.started_at < r.started_at then some r else some b') (some b)
        = some c
      ∧ (c = b ∨ c ∈ xs)
      ∧ b.started_at ≤ c.started_at
      ∧ ∀ x ∈ xs, x.started_at ≤ c.started_at := by
  induction xs generalizing b with
  | nil => exact ⟨b, rfl, Or.inl rfl, le_refl _, fun x hx => absurd hx (List.not_mem_nil x)⟩
  | cons x t ih =>
    simp only [List.foldl_cons]
    by_cases h : b.started_at < x.started_at
    · obtain ⟨c, hc, hmem, hle, hall⟩ := ih x
      refine ⟨c, by simpa [h] using hc, ?_, le_of_lt (lt_of_lt_of_le h hle), ?_⟩
      · rcases hmem with rfl | hm
        · exact Or.inr (List.mem_cons_self _ _)
        · exact Or.inr (List.mem_cons_of_mem _ hm)
      · intro y hy
        rcases List.mem_cons.mp hy with rfl | hyt
        · exact hle
        · exact hall y hyt
    · obtain ⟨c, hc, hmem, hle, hall⟩ := ih b
      refine ⟨c, by simpa [h] using hc, ?_, hle, ?_⟩
      · rcases hmem with rfl | hm
        · exact Or.inl rfl
        · exact Or.inr (List.mem_cons_of_mem _ hm)
      · intro y hy
        rcases List.mem_cons.mp hy with rfl | hyt
        · exact le_trans (not_lt.mp h) hle
        · exact hall y hyt

/-- When `getIncompleteRun`'s scan finds a run, that run is an `in_progress`
row of the table and no other `in_progress` run started later: it is the
most-recent `in_progress` run. -/
lemma latestInProgress_spec (runs : List RunRow) (rr : RunRow)
    (h : latestInProgress runs = some rr) :
    rr ∈ runs ∧ rr.status = "in_progress"
      ∧ ∀ r ∈ runs, r.status = "in_progress" → r.started_at ≤ rr.started_at := by
  unfold latestInProgress at h
  cases hf : runs.filter (fun r => r.status == "in_progress") with
  | nil => rw [hf] at h; cases h
  | cons x xs =>
    rw [hf, List.foldl_cons] at h
    obtain ⟨c, hc, hmem, hle, hall⟩ := foldl_latest_spec xs x
    have h' : xs.foldl (fun acc r =>
        match acc with
        | none => some r
        | some b' => if b'.started_at < r.started_at then some r else some b') (some x)
        = some rr := h
    rw [hc] at h'
    injection h' with h''
    subst h''
    have hcfilter : c ∈ runs.filter (fun r => r.status == "in_progress") := by
      rw [hf]
      rcases hmem with rfl | hm
      · exact List.mem_cons_self _ _
      · exact List.mem_cons_of_mem _ hm
    rw [List.mem_filter] at hcfilter
    refine ⟨hcfilter.1, by simpa using hcfilter.2, ?_⟩
    intro r hr hrstat
    have hrfilter : r ∈ runs.filter (fun r => r.status == "in_progress") :=
      List.mem_filter.mpr ⟨hr, by simp [hrstat]⟩
    rw [hf] at hrfilter
    rcases List.mem_cons.mp hrfilter with rfl | hrxs
    · exact hle
    · exact hall r hrxs

/-- Membership in the pending-slug list `getIncompleteRun` computes for the
most-recent in-progress run: exactly the `pending`/`failed` work items of
that run. -/
lemma mem_pendingCategories_iff (db : LedgerDB) (ir : IncompleteRunV)
    (h : getIncompleteRun db = some ir) (path : String) :
    (ir.pendingCategories.contains path) = true
      ↔ ∃ c ∈ db.categoryRuns, c.run_id = ir.id ∧ c.category_slug = path
          ∧ (c.status = "pending" ∨ c.status = "failed") := by
  unfold getIncompleteRun at h
  cases hl : latestInProgress db.runs with
  | none => rw [hl] at h; cases h
  | some run =>
    rw [hl] at h
    injection h with h
    subst h
    dsimp only
    have hmem : (((db.categoryRuns.filter (fun c =>
        c.run_id == run.id && (c.status == "pending" || c.status == "failed"))).map
        (·.category_slug)).contains path) = true
        ↔ path ∈ (db.categoryRuns.filter (fun c =>
            c.run_id == run.id && (c.status == "pending" || c.status == "failed"))).map
            (·.category_slug) := by
      simp
    rw [hmem, List.mem_map]
    constructor
    · rintro ⟨c, hc, hslug⟩
      rw [List.mem_filter] at hc
      have hst := hc.2
      simp only [Bool.and_eq_true, Bool.or_eq_true, beq_iff_eq] at hst
      exact ⟨c, hc.1, hst.1, hslug, hst.2⟩
    · rintro ⟨c, hmemc, hid, hslug, hstat⟩
      refine ⟨c, ?_, hslug⟩
      rw [List.mem_filter]
      refine ⟨hmemc, ?_⟩
      simp only [Bool.and_eq_true, Bool.or_eq_true, beq_iff_eq]
      exact ⟨hid, hstat⟩

/-- Membership in the pending-slug list computed from a run's work items. -/
lemma contains_pendingSlugs_iff (rs : RunStatusV) (path : String) :
    (((rs.categories.filter (fun c => c.status == "pending" || c.status == "failed")).map
      (·.categorySlug)).contains path) = true
    ↔ ∃ c ∈ rs.categories, c.categorySlug = path
        ∧ (c.status = "pending" ∨ c.status = "failed") := by
  have hmem : (((rs.categories.filter (fun c =>
      c.status == "pending" || c.status == "failed")).map (·.categorySlug)).contains path) = true
      ↔ path ∈ (rs.categories.filter (fun c =>
          c.status == "pending" || c.status == "failed")).map (·.categorySlug) := by
    simp
  rw [hmem, List.mem_map]
  constructor
  · rintro ⟨c, hc, hslug⟩
    rw [List.mem_filter] at hc
    have hst := hc.2
    simp only [Bool.or_eq_true, beq_iff_eq] at hst
    exact ⟨c, hc.1, hslug, hst⟩
  · rintro ⟨c, hmemc, hslug, hstat⟩
    refine ⟨c, ?_, hslug⟩
    rw [List.mem_filter]
    refine ⟨hmemc, ?_⟩
    rcases hstat with h | h <;> simp [h]

/-- **C8.** `resolveResumeState` raises an error if and only if an explicitly
requested run identifier does not exist or that run's status is completed;
when no in-progress run exists (resume flag without an id), it returns all
selected categories with the "nothing to resume" indication and
`isResuming = false`; when a target run exists — explicitly requested and
not completed, or (on the resume-flag route) the most-recent `in_progress`
run — the returned set is exactly the selected categories whose work item
in that run is `pending` or `failed`, and when that intersection is empty
it reports `allCompleted = true` with `isResuming = true` — a signal
distinct from the not-resuming "nothing to resume" case. -/
theorem c8_resolveResumeState (db : LedgerDB) (sel : List FlatCategory)
    (opts : ResumeOptions) :
    ((∃ msg, resolveResumeState db sel opts = Except.error msg) ↔
      (∃ rid, opts.runId = some rid ∧
        (getRunStatus db rid = none ∨
          ∃ rs, getRunStatus db rid = some rs ∧ rs.status = "completed")))
    ∧ (opts.resume = true → opts.runId = none →
        (∀ r ∈ db.runs, r.status ≠ "in_progress") →
        resolveResumeState db sel opts
          = Except.ok ⟨none, sel, false, some "No incomplete run found, starting fresh", false⟩)
    ∧ (∀ rid rs, opts.runId = some rid → getRunStatus db rid = some rs →
        rs.status ≠ "completed" →
        ∃ res, resolveResumeState db sel opts = Except.ok res
          ∧ (∀ cat, cat ∈ res.categoriesToScrape ↔
              cat ∈ sel ∧ ∃ c ∈ rs.categories, c.categorySlug = categoryPath cat
                ∧ (c.status = "pending" ∨ c.status = "failed"))
          ∧ (res.categoriesToScrape = [] → res.isResuming = true ∧ res.allCompleted = true)
          ∧ (res.categoriesToScrape ≠ [] →
              res.isResuming = true ∧ res.allCompleted = false))
    ∧ (∀ ir, opts.resume = true → opts.runId = none → getIncompleteRun db = some ir →
        (∃ rr ∈ db.runs, rr.status = "in_progress" ∧ ir.id = rr.id
          ∧ ∀ r ∈ db.runs, r.status = "in_progress" → r.started_at ≤ rr.started_at)
        ∧ ∃ res, resolveResumeState db sel opts = Except.ok res
          ∧ res.runId = some ir.id
          ∧ (∀ cat, cat ∈ res.categoriesToScrape ↔
              cat ∈ sel ∧ ∃ c ∈ db.categoryRuns, c.run_id = ir.id
                ∧ c.category_slug = categoryPath cat
                ∧ (c.status = "pending" ∨ c.status = "failed"))
          ∧ (res.categoriesToScrape = [] → res.isResuming = true ∧ res.allCompleted = true)
          ∧ (res.categoriesToScrape ≠ [] →
              res.isResuming = true ∧ res.allCompleted = false)) := by
  obtain ⟨b, rid?⟩ := opts
  refine ⟨⟨?_, ?_⟩, ?_, ?_, ?_⟩
  · rintro ⟨msg, hmsg⟩
    cases rid? with
    | none =>
      exfalso
      cases b with
      | false => rw [rrs_no_flags] at hmsg; cases hmsg
      | true =>
        cases hinc : getIncompleteRun db with
        | none => rw [rrs_resume_none db sel hinc] at hmsg; cases hmsg
        | some ir =>
          rw [rrs_resume_some db sel ir hinc] at hmsg
          split at hmsg <;> cases hmsg
    | some rid =>
      refine ⟨rid, rfl, ?_⟩
      cases hrs : getRunStatus db rid with
      | none => exact Or.inl rfl
      | some rs =>
        by_cases hcomp : rs.status = "completed"
        · exact Or.inr ⟨rs, rfl, hcomp⟩
        · exfalso
          rw [rrs_target db sel rid b rs hrs (by simp [hcomp])] at hmsg
          split at hmsg <;> cases hmsg
  · rintro ⟨rid, hrid, hcase⟩
    simp only at hrid
    subst hrid
    rcases hcase with hnone | ⟨rs, hrs, hcomp⟩
    · exact ⟨_, rrs_notfound db sel rid b hnone⟩
    · exact ⟨_, rrs_completed db sel rid b rs hrs hcomp⟩
  · intro hres hrid hnorun
    simp only at hres hrid
    subst hres
    subst hrid
    have hl : latestInProgress db.runs = none := by
      rw [latestInProgress_eq_none_iff]
      rw [List.filter_eq_nil_iff]
      intro r hr
      simpa using hnorun r hr
    have hinc : getIncompleteRun db = none := by
      unfold getIncompleteRun
      rw [hl]
    exact rrs_resume_none db sel hinc
  · intro rid rs hrid hrs hcomp
    simp only at hrid
    subst hrid
    rw [rrs_target db sel rid b rs hrs (by simp [hcomp])]
    by_cases hemp : (sel.filter (fun cat =>
        ((rs.categories.filter (fun c => c.status == "pending" || c.status == "failed")).map
          (·.categorySlug)).contains (categoryPath cat))).isEmpty
    · rw [if_pos hemp]
      refine ⟨_, rfl, ?_, fun _ => ⟨rfl, rfl⟩, fun h => absurd rfl h⟩
      intro cat
      simp only [List.not_mem_nil, false_iff]
      rintro ⟨hsel, hex⟩
      have hmem : cat ∈ sel.filter (fun cat =>
          ((rs.categories.filter (fun c => c.status == "pending" || c.status == "failed")).map
            (·.categorySlug)).contains (categoryPath cat)) := by
        rw [List.mem_filter]
        exact ⟨hsel, (contains_pendingSlugs_iff rs (categoryPath cat)).mpr hex⟩
      rw [List.isEmpty_iff] at hemp
      rw [hemp] at hmem
      cases hmem
    · rw [if_neg hemp]
      refine ⟨_, rfl, ?_, ?_, fun _ => ⟨rfl, rfl⟩⟩
      · intro cat
        rw [List.mem_filter]
        constructor
        · rintro ⟨hsel, hcont⟩
          exact ⟨hsel, (contains_pendingSlugs_iff rs (categoryPath cat)).mp hcont⟩
        · rintro ⟨hsel, hex⟩
          exact ⟨hsel, (contains_pendingSlugs_iff rs (categoryPath cat)).mpr hex⟩
      · intro h
        rw [List.isEmpty_iff] at hemp
        exact absurd h hemp
  · intro ir hres hrid hinc
    simp only at hres hrid
    subst hres
    subst hrid
    constructor
    · have hl : ∃ run, latestInProgress db.runs = some run ∧ ir.id = run.id := by
        unfold getIncompleteRun at hinc
        cases hlp : latestInProgress db.runs with
        | none => rw [hlp] at hinc; cases hinc
        | some run =>
          rw [hlp] at hinc
          injection hinc with h'
          exact ⟨run, rfl, by rw [← h']⟩
      obtain ⟨run, hlp, hid⟩ := hl
      obtain ⟨hmem, hstat, hmax⟩ := latestInProgress_spec db.runs run hlp
      exact ⟨run, hmem, hstat, hid, hmax⟩
    · rw [rrs_resume_some db sel ir hinc]
      by_cases hemp : (sel.filter (fun cat =>
          ir.pendingCategories.contains (categoryPath cat))).isEmpty
      · rw [if_pos hemp]
        refine ⟨_, rfl, rfl, ?_, fun _ => ⟨rfl, rfl⟩, fun h => absurd rfl h⟩
        intro cat
        simp only [List.not_mem_nil, false_iff]
        rintro ⟨hsel, hex⟩
        have hmem2 : cat ∈ sel.filter (fun cat =>
            ir.pendingCategories.contains (categoryPath cat)) := by
          rw [List.mem_filter]
          exact ⟨hsel, (mem_pendingCategories_iff db ir hinc (categoryPath cat)).mpr hex⟩
        rw [List.isEmpty_iff] at hemp
        rw [hemp] at hmem2
        cases hmem2
      · rw [if_neg hemp]
        refine ⟨_, rfl, rfl, ?_, ?_, fun _ => ⟨rfl, rfl⟩⟩
        · intro cat
          rw [List.mem_filter]
          constructor
          · rintro ⟨hsel, hcont⟩
            exact ⟨hsel, (mem_pendingCategories_iff db ir hinc (categoryPath cat)).mp hcont⟩
          · rintro ⟨hsel, hex⟩
            exact ⟨hsel, (mem_pendingCategories_iff db ir hinc (categoryPath cat)).mpr hex⟩
        · intro h
          rw [List.isEmpty_iff] at hemp
          exact absurd h hemp

/-- Witness for C8 at concrete inputs: requesting resume of run 99 against
an empty store raises an error (the "not found" condition); and on the
resume-flag route, a run with three work items — one `completed`, one
`pending`, one `failed` — yields exactly the other two as categories to
scrape. -/
theorem c8_resolveResumeState_witness :
    (∃ msg, resolveResumeState emptyDB [] ⟨false, some 99⟩ = Except.error msg)
    ∧ (∃ res, resolveResumeState
          ⟨[⟨1, "t0", none, "in_progress"⟩],
           [⟨1, "s", "A > a", "completed", some 3, some 5, none⟩,
            ⟨1, "s", "A > b", "pending", none, none, none⟩,
            ⟨1, "s", "A > c", "failed", none, none, some "boom"⟩]⟩
          [⟨"A", "a"⟩, ⟨"A", "b"⟩, ⟨"A", "c"⟩] ⟨true, none⟩ = Except.ok res
        ∧ res.runId = some 1
        ∧ ⟨"A", "b"⟩ ∈ res.categoriesToScrape
        ∧ ⟨"A", "c"⟩ ∈ res.categoriesToScrape
        ∧ ⟨"A", "a"⟩ ∉ res.categoriesToScrape) := by
  refine ⟨(c8_resolveResumeState emptyDB [] ⟨false, some 99⟩).1.mpr ⟨99, rfl, Or.inl rfl⟩, ?_⟩
  obtain ⟨_, res, hres, hrid, hiff, _, _⟩ :=
    (c8_resolveResumeState
      ⟨[⟨1, "t0", none, "in_progress"⟩],
       [⟨1, "s", "A > a", "completed", some 3, some 5, none⟩,
        ⟨1, "s", "A > b", "pending", none, none, none⟩,
        ⟨1, "s", "A > c", "failed", none, none, some "boom"⟩]⟩
      [⟨"A", "a"⟩, ⟨"A", "b"⟩, ⟨"A", "c"⟩] ⟨true, none⟩).2.2.2
      ⟨1, "t0", ["A > b", "A > c"]⟩ rfl rfl (by decide)
  refine ⟨res, hres, hrid, ?_, ?_, ?_⟩
  · exact (hiff ⟨"A", "b"⟩).mpr (by decide)
  · exact (hiff ⟨"A", "c"⟩).mpr (by decide)
  · intro hmem
    exact absurd ((hiff ⟨"A", "a"⟩).mp hmem) (by decide)

/-! Lemmas for the orchestrator (`multi-scraper.ts`). -/

/-- `find?` commutes with a map that does not disturb the predicate. -/
lemma find?_map_pred_preserving {α : Type} (f : α → α) (p : α → Bool)
    (hf : ∀ a, p (f a) = p a) (l : List α) :
    (l.map f).find? p = (l.find? p).map f := by
  induction l with
  | nil => rfl
  | cons a t ih =>
    rw [List.map_cons]
    by_cases h : p a
    · rw [List.find?_cons_of_pos _ ((hf a).trans h), List.find?_cons_of_pos _ h,
        Option.map_some']
    · rw [List.find?_cons_of_neg _ (by rw [hf a]; simpa using h),
        List.find?_cons_of_neg _ (by simpa using h)]
      exact ih

/-- `updateCategoryRun` preserves each row's key triple, so lookups see the
update exactly on the addressed key. -/
lemma findItem_updateCategoryRun (db : LedgerDB) (runId : Nat) (storeId slug slug' : String)
    (u : CategoryRunUpdate) :
    findItem (updateCategoryRun db runId storeId slug' u) runId storeId slug
      = (findItem db runId storeId slug).map (fun r =>
          if r.run_id == runId && r.store_id == storeId && r.category_slug == slug' then
            { r with
              status := u.status
              last_page := u.lastPage
              product_count := u.productCount
              error := u.error }
          else r) := by
  unfold findItem updateCategoryRun
  exact find?_map_pred_preserving _ _
    (fun r => by by_cases h : r.run_id == runId && r.store_id == storeId && r.category_slug == slug' <;>
      simp [h]) db.categoryRuns

/-- Updating a different category leaves a work item's row unchanged. -/
lemma findItem_update_ne (db : LedgerDB) (runId : Nat) (storeId slug slug' : String)
    (u : CategoryRunUpdate) (hne : slug ≠ slug') :
    findItem (updateCategoryRun db runId storeId slug' u) runId storeId slug
      = findItem db runId storeId slug := by
  rw [findItem_updateCategoryRun]
  cases hfind : findItem db runId storeId slug with
  | none => rfl
  | some r =>
    rw [Option.map_some']
    have hkey := List.find?_some hfind
    simp only [Bool.and_eq_true, beq_iff_eq] at hkey
    rw [if_neg (by
      simp only [Bool.and_eq_true, beq_iff_eq, not_and]
      intro _ h'
      exact hne (hkey.2.symm.trans h'))]

/-- Updating the addressed category overwrites exactly the four writable
fields of its row. -/
lemma findItem_update_hit (db : LedgerDB) (runId : Nat) (storeId slug : String)
    (u : CategoryRunUpdate) (r : CategoryRunRow)
    (hfind : findItem db runId storeId slug = some r) :
    findItem (updateCategoryRun db runId storeId slug u) runId storeId slug
      = some { r with
          status := u.status
          last_page := u.lastPage
          product_count := u.productCount
          error := u.error } := by
  rw [findItem_updateCategoryRun, hfind, Option.map_some']
  have hkey := List.find?_some hfind
  rw [if_pos hkey]

/-- A `scrapeCategory` step leaves unrelated work items untouched. -/
lemma findItem_scrapeStep_ne (db : LedgerDB) (runId : Nat) (storeId : String)
    (maxPages : Nat) (cat : FlatCategory) (o : Except String Nat) (slug : String)
    (hne : slug ≠ categoryPath cat) :
    findItem (scrapeCategoryStep db runId storeId maxPages cat o) runId storeId slug
      = findItem db runId storeId slug := by
  unfold scrapeCategoryStep
  cases o with
  | ok n => rw [findItem_update_ne _ _ _ _ _ _ hne, findItem_update_ne _ _ _ _ _ _ hne]
  | error msg => rw [findItem_update_ne _ _ _ _ _ _ hne, findItem_update_ne _ _ _ _ _ _ hne]

/-- A `scrapeCategory` step drives its own work item from any present row to
the terminal row: `in_progress` first, then `completed` with page and
product counts, or `failed` with the error text. -/
lemma findItem_scrapeStep_hit (db : LedgerDB) (runId : Nat) (storeId : String)
    (maxPages : Nat) (cat : FlatCategory) (o : Except String Nat) (r : CategoryRunRow)
    (hfind : findItem db runId storeId (categoryPath cat) = some r)
    (hkeys : r.run_id = runId ∧ r.store_id = storeId ∧ r.category_slug = categoryPath cat) :
    findItem (scrapeCategoryStep db runId storeId maxPages cat o) runId storeId
        (categoryPath cat)
      = some (terminalRow runId storeId maxPages (categoryPath cat) o) := by
  unfold scrapeCategoryStep
  obtain ⟨hk1, hk2, hk3⟩ := hkeys
  have h1 := findItem_update_hit db runId storeId (categoryPath cat)
    { status := "in_progress" } r hfind
  cases o with
  | ok n =>
    dsimp only
    rw [findItem_update_hit _ _ _ _ _ _ h1]
    unfold terminalRow
    simp [hk1, hk2, hk3]
  | error msg =>
    dsimp only
    rw [findItem_update_hit _ _ _ _ _ _ h1]
    unfold terminalRow
    simp [hk1, hk2, hk3]

/-- `createRun`'s bulk insert makes every selected category's work item
findable as a fresh pending row. -/
lemma findItem_pendingRows (runId : Nat) (storeId : String) (slugs : List String)
    (slug : String) (h : slug ∈ slugs) :
    (slugs.map (pendingRow runId storeId)).find? (fun r =>
      r.run_id == runId && r.store_id == storeId && r.category_slug == slug)
      = some (pendingRow runId storeId slug) := by
  induction slugs with
  | nil => cases h
  | cons s t ih =>
    rw [List.map_cons]
    by_cases hs : s = slug
    · subst hs
      rw [List.find?_cons_of_pos
        (p := fun r : CategoryRunRow =>
          r.run_id == runId && r.store_id == storeId && r.category_slug == s) _
        (by simp [pendingRow])]
    · rw [List.find?_cons_of_neg
        (p := fun r : CategoryRunRow =>
          r.run_id == runId && r.store_id == storeId && r.category_slug == slug) _
        (by simp [pendingRow, hs])]
      refine ih ?_
      rcases List.mem_cons.mp h with h' | h'
      · exact absurd h'.symm hs
      · exact h'

/-- The scraping fold never touches the `scrape_runs` table. -/
lemma foldl_scrape_runs (runId : Nat) (storeId : String) (maxPages : Nat)
    (oracle : FlatCategory → Except String Nat) :
    ∀ (cats : List FlatCategory) (db : LedgerDB),
      (cats.foldl (fun db cat =>
        scrapeCategoryStep db runId storeId maxPages cat (oracle cat)) db).runs = db.runs := by
  intro cats
  induction cats with
  | nil => intro db; rfl
  | cons c t ih =>
    intro db
    rw [List.foldl_cons, ih]
    unfold scrapeCategoryStep updateCategoryRun
    cases oracle c <;> rfl

/-- The scraping fold leaves any work item outside its category list
untouched. -/
lemma foldl_scrape_ne (runId : Nat) (storeId : String) (maxPages : Nat)
    (oracle : FlatCategory → Except String Nat) (slug : String) :
    ∀ (cats : List FlatCategory) (db : LedgerDB), slug ∉ cats.map categoryPath →
      findItem (cats.foldl (fun db cat =>
          scrapeCategoryStep db runId storeId maxPages cat (oracle cat)) db)
        runId storeId slug = findItem db runId storeId slug := by
  intro cats
  induction cats with
  | nil => intro db _; rfl
  | cons c t ih =>
    intro db hnm
    have h1 : slug ≠ categoryPath c := by
      intro he
      exact hnm (by rw [List.map_cons, he]; exact List.mem_cons_self _ _)
    have h2 : slug ∉ t.map categoryPath := by
      intro hm
      exact hnm (by rw [List.map_cons]; exact List.mem_cons_of_mem _ hm)
    rw [List.foldl_cons, ih _ h2, findItem_scrapeStep_ne _ _ _ _ _ _ _ h1]

/-- Per-item isolation of the orchestrator's fold: with distinct category
paths, every item whose row starts pending ends in its own terminal state,
determined only by its own scrape outcome — failures elsewhere neither
abort the fold nor disturb other rows. -/
lemma foldl_scrape_spec (runId : Nat) (storeId : String) (maxPages : Nat)
    (oracle : FlatCategory → Except String Nat) :
    ∀ (cats : List FlatCategory) (db : LedgerDB),
      (cats.map categoryPath).Nodup →
      (∀ cat ∈ cats, findItem db runId storeId (categoryPath cat)
        = some (pendingRow runId storeId (categoryPath cat))) →
      ∀ cat ∈ cats,
        findItem (cats.foldl (fun db cat =>
            scrapeCategoryStep db runId storeId maxPages cat (oracle cat)) db)
          runId storeId (categoryPath cat)
          = some (terminalRow runId storeId maxPages (categoryPath cat) (oracle cat)) := by
  intro cats
  induction cats with
  | nil => intro db _ _ cat hc; cases hc
  | cons c t ih =>
    intro db hnd hpend cat hcat
    rw [List.map_cons, List.nodup_cons] at hnd
    rw [List.foldl_cons]
    rcases List.mem_cons.mp hcat with rfl | hmem
    · rw [foldl_scrape_ne _ _ _ _ _ _ _ hnd.1]
      exact findItem_scrapeStep_hit db runId storeId maxPages cat (oracle cat) _
        (hpend cat (List.mem_cons_self _ _)) ⟨rfl, rfl, rfl⟩
    · apply ih (scrapeCategoryStep db runId storeId maxPages c (oracle c)) hnd.2 ?_ cat hmem
      intro cat' hcat'
      have hne : categoryPath cat' ≠ categoryPath c := by
        intro he
        have hin := List.mem_map_of_mem categoryPath hcat'
        rw [he] at hin
        exact hnd.1 hin
      rw [findItem_scrapeStep_ne _ _ _ _ _ _ _ hne]
      exact hpend cat' (List.mem_cons_of_mem _ hcat')

/-- After a full orchestrator run from a fresh store, the single run row is
stamped `completed` — whatever each item's outcome was. -/
lemma multiScraperRun_runs (storeId startedAt completedAt : String) (maxPages : Nat)
    (cats : List FlatCategory) (oracle : FlatCategory → Except String Nat) :
    (multiScraperRun storeId startedAt completedAt maxPages cats oracle).1.runs
      = [⟨1, startedAt, some completedAt, "completed"⟩] := by
  unfold multiScraperRun createRun createRunPartial completeRun
  rw [if_neg (show ¬(1 + (cats.map categoryPath).length = 0) by omega)]
  dsimp only
  rw [foldl_scrape_runs]
  simp [nextRunId, emptyDB]

/-- **C7.** When scraping any one work item throws, the orchestrator marks
only that item `failed` in the ledger with the error text and continues:
over a fresh run with distinct category paths, every item's final ledger row
is `completed` with its page count (`lastPage = maxPages`) and product count
when its scrape succeeds, or `failed` with the error text when it throws —
each determined solely by that item's own outcome, for every combination of
outcomes of the other items — and after all items finish the run row is
marked completed (`completeRun`). -/
theorem c7_orchestrator_isolation (storeId startedAt completedAt : String) (maxPages : Nat)
    (cats : List FlatCategory) (oracle : FlatCategory → Except String Nat)
    (hnd : (cats.map categoryPath).Nodup) :
    (∀ cat ∈ cats,
      findItem (multiScraperRun storeId startedAt completedAt maxPages cats oracle).1
          1 storeId (categoryPath cat)
        = some (terminalRow 1 storeId maxPages (categoryPath cat) (oracle cat)))
    ∧ (multiScraperRun storeId startedAt completedAt maxPages cats oracle).1.runs
        = [⟨1, startedAt, some completedAt, "completed"⟩] := by
  refine ⟨?_, multiScraperRun_runs storeId startedAt completedAt maxPages cats oracle⟩
  intro cat hcat
  show findItem (completeRun _ _ _) 1 storeId (categoryPath cat) = _
  have hcomplete : ∀ (db : LedgerDB) (runId : Nat) (now : String),
      findItem (completeRun db runId now) 1 storeId (categoryPath cat)
        = findItem db 1 storeId (categoryPath cat) := fun _ _ _ => rfl
  rw [hcomplete]
  apply foldl_scrape_spec 1 storeId maxPages oracle cats _ hnd _ cat hcat
  intro cat' hcat'
  show findItem (createRunPartial emptyDB storeId startedAt (cats.map categoryPath)
    (1 + (cats.map categoryPath).length)) 1 storeId (categoryPath cat') = _
  unfold createRunPartial
  rw [if_neg (show ¬(1 + (cats.map categoryPath).length = 0) by omega)]
  unfold findItem
  dsimp only
  rw [show emptyDB.categoryRuns = ([] : List CategoryRunRow) from rfl, List.nil_append,
    show 1 + (cats.map categoryPath).length - 1 = (cats.map categoryPath).length by omega,
    List.take_length]
  exact findItem_pendingRows 1 storeId (cats.map categoryPath) (categoryPath cat')
    (List.mem_map_of_mem _ hcat')

/-- Witness for C7 at a concrete input: two categories, the second of which
throws `net timeout`; the first ends `completed` with its counts, the second
ends `failed` with the error text, and the run row is completed. -/
theorem c7_orchestrator_isolation_witness :
    (findItem (multiScraperRun "store-001" "t0" "t1" 3
        [⟨"Pantry", "Rice"⟩, ⟨"Pantry", "Pasta"⟩]
        (fun c => if c.category1 == "Pasta" then Except.error "net timeout" else Except.ok 5)).1
      1 "store-001" "Pantry > Rice"
      = some ⟨1, "store-001", "Pantry > Rice", "completed", some 3, some 5, none⟩)
    ∧ (findItem (multiScraperRun "store-001" "t0" "t1" 3
        [⟨"Pantry", "Rice"⟩, ⟨"Pantry", "Pasta"⟩]
        (fun c => if c.category1 == "Pasta" then Except.error "net timeout" else Except.ok 5)).1
      1 "store-001" "Pantry > Pasta"
      = some ⟨1, "store-001", "Pantry > Pasta", "failed", none, none, some "net timeout"⟩)
    ∧ (multiScraperRun "store-001" "t0" "t1" 3
        [⟨"Pantry", "Rice"⟩, ⟨"Pantry", "Pasta"⟩]
        (fun c => if c.category1 == "Pasta" then Except.error "net timeout" else Except.ok 5)).1.runs
      = [⟨1, "t0", some "t1", "completed"⟩] := by
  obtain ⟨hitems, hruns⟩ := c7_orchestrator_isolation "store-001" "t0" "t1" 3
    [⟨"Pantry", "Rice"⟩, ⟨"Pantry", "Pasta"⟩]
    (fun c => if c.category1 == "Pasta" then Except.error "net timeout" else Except.ok 5)
    (by decide)
  refine ⟨?_, ?_, hruns⟩
  · exact hitems ⟨"Pantry", "Rice"⟩ (by decide)
  · exact hitems ⟨"Pantry", "Pasta"⟩ (by decide)

/-- **C9.** `run()` calls `completeRun` unconditionally after driving every
work item — even when items ended `failed` (the outcome function here is
arbitrary): the stored run status is `completed`; thereafter
`resolveResumeState` targeting that run id raises the already-completed
error, and `getIncompleteRun` no longer returns the run — its failed items
can never be re-executed through resume. -/
theorem c9_completed_run_not_resumable (storeId startedAt completedAt : String)
    (maxPages : Nat) (cats : List FlatCategory) (oracle : FlatCategory → Except String Nat)
    (sel : List FlatCategory) (b : Bool) :
    (multiScraperRun storeId startedAt completedAt maxPages cats oracle).1.runs
        = [⟨1, startedAt, some completedAt, "completed"⟩]
    ∧ resolveResumeState (multiScraperRun storeId startedAt completedAt maxPages cats oracle).1
        sel ⟨b, some 1⟩ = Except.error "Run 1 is already completed"
    ∧ getIncompleteRun (multiScraperRun storeId startedAt completedAt maxPages cats oracle).1
        = none := by
  have hruns := multiScraperRun_runs storeId startedAt completedAt maxPages cats oracle
  have hfilter : ([⟨1, startedAt, some completedAt, "completed"⟩] : List RunRow).filter
      (fun r => r.status == "in_progress") = [] := by
    simp only [List.filter_cons, List.filter_nil]
    rw [if_neg (by decide)]
  refine ⟨hruns, ?_, ?_⟩
  · have hgs : ∃ rs, getRunStatus
        (multiScraperRun storeId startedAt completedAt maxPages cats oracle).1 1 = some rs
        ∧ rs.status = "completed" := by
      unfold getRunStatus
      rw [hruns, List.find?_cons_of_pos (p := fun r : RunRow => r.id == 1) _
        (show ((⟨1, startedAt, some completedAt, "completed"⟩ : RunRow).id == 1) = true
          from rfl)]
      exact ⟨_, rfl, rfl⟩
    obtain ⟨rs, h1, h2⟩ := hgs
    rw [rrs_completed _ sel 1 b rs h1 h2]
    rfl
  · unfold getIncompleteRun latestInProgress
    rw [hruns, hfilter]
    rfl

end Superscrape
